import Mathlib

/-!
Shallow embedding of the statement-level contract generator of the
gofed/symbols-extractor repository (pkg/parser/statement/statement_parser.go,
together with the contracts package and the symbol-table stack package that
ship with it).  The expression parser, the type parser and the symbol
accessor are external collaborators; they are modelled as oracle functions
carried in a `Collab` record.  Collaborator side effects (their own contract
emissions and type-variable allocations) are abstracted away: the contract
list of a model state records exactly the contracts appended by the
statement parser itself.
-/

set_option maxHeartbeats 1600000

namespace SymbolsExtractor

/-- Go data types (package gotypes).  The package is not under src/;
Modelled from the spec: section 3 "Data types", a closed sum with the
variants Builtin{name, untyped}, Identifier{name, package}, Pointer{of},
Array{length, element}, Slice{element}, Map{key, value},
Channel{direction, element}, Ellipsis{element},
Function{params, results, variadic}, Method{receiver, signature},
Interface{methods}, Struct{fields}, PackageQualifier{name, path}.  Field
names follow the Go field names visible in statement_parser.go
(Def, Untyped, Package, Elmtype, Keytype, Valuetype, Value, Receiver). -/
inductive DataType where
  | builtin (bDef : String) (untyped : Bool)
  | identifier (iDef : String) (pkg : String)
  | pointer (pDef : DataType)
  | arrayT (len : Int) (elmtype : DataType)
  | sliceT (elmtype : DataType)
  | mapT (keytype valuetype : DataType)
  | channelT (dir : String) (value : Option DataType)
  | ellipsisT (eDef : DataType)
  | functionT (params results : List DataType) (variadic : Bool)
  | methodT (receiver signature : DataType)
  | interfaceT (methods : List (String × DataType))
  | structT (fields : List (String × DataType))
  | packageQualifier (name path : String)

/-- Type variables (package typevars).  The package is not under src/;
Modelled from the spec: section 3 "Type variables": Variable{package, name,
pos}, Constant{package, type}, VirtualVar{id}, CGO, RangeKey{over},
RangeValue{over}, ListKey{over}, MapKey{over}, Argument{function, index},
ReturnType{function, index}, Field{of, name, index}. -/
inductive TypeVar where
  | varT (pkg name pos : String)
  | constant (pkg : String) (dt : DataType)
  | virtualVar (id : Nat)
  | cgo
  | rangeKey (over : TypeVar)
  | rangeValue (over : TypeVar)
  | listKey (over : TypeVar)
  | mapKey (over : TypeVar)
  | argument (fn : String) (index : Nat)
  | returnType (fn : String) (index : Nat)
  | field (of : TypeVar) (name : String) (index : Nat)

/-- Go token.Token, restricted to the comparisons the statement parser
performs (token.DEFINE for := and token.ARROW for <-); every other token
is behaviourally identical to plain assignment for this parser. -/
inductive Tok where
  | define
  | assign
  | arrow
  | otherTok (s : String)
  deriving DecidableEq

/-- Contracts (pkg/parser/contracts, included in src/ after the statement
parser).  Each constructor mirrors one struct of that package; ExpectedType
is an optional data-type hint (nil in Go when not set). -/
inductive Contract where
  | binaryOp (op : Tok) (X Y Z : TypeVar) (expectedType : Option DataType)
  | unaryOp (op : Tok) (X Y : TypeVar) (expectedType : Option DataType)
  | propagatesTo (X Y : TypeVar) (expectedType : Option DataType)
  | isCompatibleWith (X Y : TypeVar) (expectedType : Option DataType) (weak : Bool)
  | isInvocable (F : TypeVar) (argsCount : Nat)
  | hasField (X : TypeVar) (fieldName : String) (index : Nat)
  | isReferenceable (X : TypeVar)
  | referenceOf (X Y : TypeVar)
  | isDereferenceable (X : TypeVar)
  | dereferenceOf (X Y : TypeVar)
  | isIndexable (X : TypeVar) (key : Option TypeVar) (isSlice : Bool)
  | isSendableTo (X Y : TypeVar)
  | isReceiveableFrom (X Y : TypeVar) (expectedType : Option DataType)
  | isIncDecable (X : TypeVar)
  | isRangeable (X : TypeVar)

/-- SymbolDef (pkg/symbols).  Modelled from the spec: section 3 "Symbol
definitions": SymbolDef{name, package, def, pos}; def may be null while a
self-referential definition is in progress, hence the Option. -/
structure SymbolDef where
  Name : String
  Package : String
  Def : Option DataType
  Pos : String

/-- One symbol table of the stack (pkg/parser/symboltable, not under src/).
Modelled from the spec: sections 3 and 4.1: a per-table mapping keyed by
(name, kind) with kind in {variable, datatype, function}; duplicate
insertion of the same kind at the same level is an error, except that a
data type whose existing entry has a null def may be completed. -/
structure Table where
  varSyms : List SymbolDef
  typeSyms : List SymbolDef
  funcSyms : List SymbolDef

def Table.empty : Table := ⟨[], [], []⟩

def Table.lookupVariable (t : Table) (name : String) : Option SymbolDef :=
  t.varSyms.find? (fun d => d.Name = name)

def Table.lookupDataType (t : Table) (name : String) : Option SymbolDef :=
  t.typeSyms.find? (fun d => d.Name = name)

/-- Duplicate variable names at one level are rejected (spec 4.1); on
rejection the table is unchanged. -/
def Table.addVariable (t : Table) (sym : SymbolDef) : Option Table :=
  if t.varSyms.any (fun d => d.Name = sym.Name) then none
  else some { t with varSyms := t.varSyms ++ [sym] }

/-- Adding a data type whose existing entry has a null def completes the
forward declaration (spec 4.2 two-phase type spec); a duplicate with a
non-null def is rejected. -/
def Table.addDataType (t : Table) (sym : SymbolDef) : Option Table :=
  match t.typeSyms.find? (fun d => d.Name = sym.Name) with
  | none => some { t with typeSyms := t.typeSyms ++ [sym] }
  | some old =>
      match old.Def with
      | none =>
          some { t with typeSyms :=
            t.typeSyms.map (fun d => if d.Name = sym.Name then sym else d) }
      | some _ => none

/-- Lookup across the kinds of one table; the spec leaves the order among
kinds open, the claims depend only on found-or-not. -/
def Table.lookupAny (t : Table) (name : String) : Option SymbolDef :=
  match t.lookupVariable name with
  | some d => some d
  | none =>
      match t.lookupDataType name with
      | some d => some d
      | none => t.funcSyms.find? (fun d => d.Name = name)

/-- The symbol-table stack (src/unnamed/part_000, package stack).  The Go
code keeps the top of the stack at the end of the Tables slice; here the
head of the list is the top, which is the same stack. -/
structure SStack where
  tables : List Table

def SStack.push (s : SStack) : SStack := ⟨Table.empty :: s.tables⟩

/-- Pop of the Go code panics on an empty stack; every pop in the modelled
code is bracketed with its own push, so the empty case is unreachable and
is mapped to the empty stack. -/
def SStack.pop (s : SStack) : SStack := ⟨s.tables.tail⟩

def SStack.size (s : SStack) : Nat := s.tables.length

/-- CurrentLevel of the stack.  Modelled from the spec: section 4.1 lists
CurrentLevel among the stack operations and section 3 fixes level 0 as the
file/package level, so the current level is the index of the topmost
table, i.e. size - 1. -/
def SStack.currentLevel (s : SStack) : Nat := s.tables.length - 1

/-- Stack.AddVariable: error (none) when the stack is empty or the top
table rejects the duplicate; the stack is unchanged in that case. -/
def SStack.addVariable (s : SStack) (sym : SymbolDef) : Option SStack :=
  match s.tables with
  | [] => none
  | t :: rest =>
      match t.addVariable sym with
      | none => none
      | some t' => some ⟨t' :: rest⟩

def SStack.addDataType (s : SStack) (sym : SymbolDef) : Option SStack :=
  match s.tables with
  | [] => none
  | t :: rest =>
      match t.addDataType sym with
      | none => none
      | some t' => some ⟨t' :: rest⟩

/-- Stack.LookupVariable walks top to bottom, first match wins. -/
def lookupVarTables : List Table → String → Option SymbolDef
  | [], _ => none
  | t :: rest, name =>
      match t.lookupVariable name with
      | some d => some d
      | none => lookupVarTables rest name

def SStack.lookupVariable (s : SStack) (name : String) : Option SymbolDef :=
  lookupVarTables s.tables name

/-- Stack.Lookup walks top to bottom over all kinds, first match wins. -/
def lookupAnyTables : List Table → String → Option SymbolDef
  | [], _ => none
  | t :: rest, name =>
      match t.lookupAny name with
      | some d => some d
      | none => lookupAnyTables rest name

def SStack.lookupAny (s : SStack) (name : String) : Option SymbolDef :=
  lookupAnyTables s.tables name


/-- Opaque type expression of the go/ast (a type position); the type
parser collaborator gives it meaning. -/
inductive TypeExpr where
  | mk (tag : String)
  deriving DecidableEq

/-- The go/ast expression shapes the statement parser inspects; every
other expression form is an opaque leaf handed to the expression-parser
collaborator.  Identifiers carry their byte position (ast.Ident.Pos). -/
inductive Expr where
  | ident (name : String) (pos : Nat)
  | paren (x : Expr)
  | selector (x : Expr) (sel : String)
  | star (x : Expr)
  | call (fn : Expr) (args : List Expr)
  | indexExpr (x idx : Expr)
  | typeAssert (x : Expr) (ty : Option TypeExpr)
  | unary (op : Tok) (x : Expr)
  | otherExpr (tag : String)

/-- Attribute record returned by the expression parser.  Spec section 3:
two equal-length sequences, one data type and one type variable per
logical result; the pairing makes the equal-length invariant structural. -/
structure Attr where
  results : List (DataType × TypeVar)

def Attr.DataTypeList (a : Attr) : List DataType := a.results.map Prod.fst

def Attr.TypeVarList (a : Attr) : List TypeVar := a.results.map Prod.snd

def Attr.len (a : Attr) : Nat := a.results.length

/-- Indexing into the attribute lists; the default is never read on the
paths where the Go code indexes (it checks lengths first, or they are
guaranteed by the arity analysis). -/
def Attr.get (a : Attr) (i : Nat) : DataType × TypeVar :=
  a.results.getD i (DataType.builtin "" false, TypeVar.cgo)

/-- Configuration and collaborators handed to the statement parser by the
driver (spec section 6): package name, file name, the expression parser,
the type parser, and the symbols accessor's FindFirstNonidDataType.
The two sub-parsers are modelled as pure oracles; FindFirstNonidDataType
is Modelled from the spec: it follows identifier chains to the first
non-identifier data type (spec 4.4 Range). -/
structure Collab where
  packageName : String
  fileName : String
  exprParse : Expr → Except String Attr
  typeParse : TypeExpr → Except String DataType
  findFirstNonid : DataType → Except String DataType

/-- SymbolPos / the fmt.Sprintf("%v:%v", FileName, pos) pattern used for
SymbolDef.Pos throughout the statement parser. -/
def posStr (fileName : String) (pos : Nat) : String :=
  fileName ++ ":" ++ toString pos

/-- VariableFromSymbolDef (package typevars).  Modelled from the spec:
Variable{package, name, pos} is the type-variable identity of a named
binding. -/
def varFromSymbolDef (d : SymbolDef) : TypeVar :=
  TypeVar.varT d.Package d.Name d.Pos

/-- MakeConstant (package typevars).  Modelled from the spec:
Constant{package, type} wraps a literal data-type witness. -/
def makeConstant (pkg : String) (dt : DataType) : TypeVar :=
  TypeVar.constant pkg dt

/-- Mutable state of one statement-parser run: the symbol-table stack, the
append-only contract table with its virtual-variable counter (spec 4.6),
the parser's lastConstType field, and the allocation-table log of
AddDataType(package, name, pos) calls. -/
structure PState where
  stack : SStack
  contracts : List Contract
  nextVirtual : Nat
  lastConstType : Option DataType
  allocations : List (String × String × String)

/-- Outcome of one parser step: Go's normal return nil, an error return,
or a panic (spec section 7 "programming errors ... surface as fatal").
The state is carried on every outcome because mutations made before an
error or panic persist (spec section 7 failure semantics). -/
inductive StepResult (α : Type) where
  | ok (val : α) (s : PState)
  | err (msg : String) (s : PState)
  | fatal (msg : String) (s : PState)

def StepResult.state {α : Type} : StepResult α → PState
  | .ok _ s => s
  | .err _ s => s
  | .fatal _ s => s

def StepResult.isOk {α : Type} : StepResult α → Prop
  | .ok _ _ => True
  | _ => False

/-- A computation of the statement parser: state in, outcome out. -/
def M (α : Type) : Type := PState → StepResult α

def M.ok {α : Type} (a : α) : M α := fun s => .ok a s

def M.err {α : Type} (m : String) : M α := fun s => .err m s

def M.fatal {α : Type} (m : String) : M α := fun s => .fatal m s

def M.bind {α β : Type} (x : M α) (f : α → M β) : M β := fun s =>
  match x s with
  | .ok a s' => f a s'
  | .err m s' => .err m s'
  | .fatal m s' => .fatal m s'

/-- Push a scope, run the body, and pop on every exit path: this is the
Push ... defer Pop() pattern (defers run on normal return, error return
and panic unwinding alike). -/
def M.scoped {α : Type} (x : M α) : M α := fun s =>
  match x { s with stack := s.stack.push } with
  | .ok a s' => .ok a { s' with stack := s'.stack.pop }
  | .err m s' => .err m { s' with stack := s'.stack.pop }
  | .fatal m s' => .fatal m { s' with stack := s'.stack.pop }

/-- Lift a collaborator result; a collaborator error is returned to the
caller as an error. -/
def M.liftE {α : Type} : Except String α → M α
  | .ok a => M.ok a
  | .error m => M.err m

/-- Go's pattern of calling a sub-parse and discarding its returned error
(used for for-loop Init/Post); a panic still propagates. -/
def M.discardErr (x : M Unit) : M Unit := fun s =>
  match x s with
  | .ok _ s' => .ok () s'
  | .err _ s' => .ok () s'
  | .fatal m s' => .fatal m s'

/-- ContractTable.AddContract: append-only, in emission order. -/
def emitC (c : Contract) : M Unit := fun s =>
  .ok () { s with contracts := s.contracts ++ [c] }

/-- ContractTable.NewVirtualVar.  Modelled from the spec: section 4.6,
a fresh monotonically numbered virtual variable. -/
def newVirtualVar : M TypeVar := fun s =>
  .ok (TypeVar.virtualVar s.nextVirtual) { s with nextVirtual := s.nextVirtual + 1 }

/-- SymbolTable.AddVariable with the returned error checked by the caller. -/
def addVarChecked (sym : SymbolDef) : M Unit := fun s =>
  match s.stack.addVariable sym with
  | some st => .ok () { s with stack := st }
  | none => .err ("AddVariable " ++ sym.Name) s

/-- SymbolTable.AddVariable with the returned error ignored by the caller
(the assignment, select, type-switch and header-binding sites). -/
def addVarIgnored (sym : SymbolDef) : M Unit := fun s =>
  match s.stack.addVariable sym with
  | some st => .ok () { s with stack := st }
  | none => .ok () s

/-- SymbolTable.AddDataType with the returned error checked. -/
def addDataTypeChecked (sym : SymbolDef) : M Unit := fun s =>
  match s.stack.addDataType sym with
  | some st => .ok () { s with stack := st }
  | none => .err ("AddDataType " ++ sym.Name) s

def setLastConstType (d : Option DataType) : M Unit := fun s =>
  .ok () { s with lastConstType := d }

def getLastConstType : M (Option DataType) := fun s =>
  .ok s.lastConstType s

def getCurrentLevel : M Nat := fun s =>
  .ok s.stack.currentLevel s

/-- AllocatedSymbolsTable.AddDataType(package, name, pos) (spec section 6);
the allocation table itself is out of scope, the log suffices. -/
def addAllocation (pkg name pos : String) : M Unit := fun s =>
  .ok () { s with allocations := s.allocations ++ [(pkg, name, pos)] }

/-- Paren stripping: the for-ok loop over *ast.ParenExpr used in the
assignment LHS and the range key/value assign arms. -/
def stripParens : Expr → Expr
  | .paren x => stripParens x
  | e => e


/-- Lift the expression-parser collaborator into the parser monad. -/
def oracleExpr (c : Collab) (e : Expr) : M Attr := M.liftE (c.exprParse e)

/-- Run the continuation on the expression parser's attribute, and run
onErr when the expression parser fails.  With onErr an error this is
plain propagation; with onErr a success it models the `return nil`
sites that silently drop the sub-error. -/
def oracleOr {α : Type} (c : Collab) (e : Expr) (onErr : M α) (k : Attr → M α) : M α :=
  fun s =>
    match c.exprParse e with
    | .error _ => onErr s
    | .ok a => k a s

def lookupVarM (name : String) : M (Option SymbolDef) := fun s =>
  .ok (s.stack.lookupVariable name) s

def lookupAnyM (name : String) : M (Option SymbolDef) := fun s =>
  .ok (s.stack.lookupAny name) s

/-- One ValueSpec of a grouped declaration: N names (with positions), an
optional explicit type, V value expressions. -/
structure ValueSpec where
  names : List (String × Nat)
  tyOpt : Option TypeExpr
  values : List Expr

/-- The statement parser clears the symbol's package below the file level
in the single-value tuple branch of ParseValueSpec
(if sp.SymbolTable.CurrentLevel() > 0 then sDef.Package = ""). -/
def clearBelowFile (lvl : Nat) (d : SymbolDef) : SymbolDef :=
  if lvl > 0 then { d with Package := "" } else d

/-- The loop of the V=1 tuple branch of ParseValueSpec
(statement_parser.go lines 200-237): one name per attribute slot;
PropagatesTo when no explicit type, IsCompatibleWith when the type is
explicit; the package is cleared below file level. -/
def valueSpecTuple (c : Collab) (typeDef : Option DataType) :
    List ((String × Nat) × (DataType × TypeVar)) → M (List SymbolDef)
  | [] => M.ok []
  | ((name, pos), (dt, tv)) :: rest =>
      if name = "_" then valueSpecTuple c typeDef rest
      else
        M.bind getCurrentLevel fun lvl =>
        match typeDef with
        | none =>
            let sDef := clearBelowFile lvl ⟨name, c.packageName, some dt, posStr c.fileName pos⟩
            M.bind (emitC (.propagatesTo tv (varFromSymbolDef sDef) sDef.Def)) fun _ =>
            M.bind (valueSpecTuple c typeDef rest) fun syms => M.ok (sDef :: syms)
        | some td =>
            let sDef := clearBelowFile lvl ⟨name, c.packageName, some td, posStr c.fileName pos⟩
            M.bind (emitC (.isCompatibleWith tv (varFromSymbolDef sDef) sDef.Def false)) fun _ =>
            M.bind (valueSpecTuple c typeDef rest) fun syms => M.ok (sDef :: syms)

/-- The element-wise loop of ParseValueSpec (lines 246-308): parse each
value, require a single result, store the symbol.  An iota value promotes
to Builtin{int, untyped} when no type is explicit; lastConstType is
remembered; the package is NOT cleared in this branch. -/
def valueSpecElems (c : Collab) (typeDef : Option DataType) :
    List ((String × Nat) × Expr) → M (List SymbolDef)
  | [] => M.ok []
  | ((name, pos), v) :: rest =>
      M.bind (oracleExpr c v) fun attr =>
      if attr.results.length ≠ 1 then
        M.err "Expecting a single expression. Got a list instead"
      else if name = "_" then valueSpecElems c typeDef rest
      else
        match typeDef with
        | some td =>
            let sDef : SymbolDef := ⟨name, c.packageName, some td, posStr c.fileName pos⟩
            M.bind (emitC (.isCompatibleWith (attr.get 0).2 (varFromSymbolDef sDef) sDef.Def false)) fun _ =>
            M.bind (match (attr.get 0).1 with
                    | .builtin b _ => if b = "iota" then setLastConstType (some td) else M.ok ()
                    | _ => M.ok ()) fun _ =>
            M.bind (valueSpecElems c typeDef rest) fun syms => M.ok (sDef :: syms)
        | none =>
            let stored : DataType :=
              match (attr.get 0).1 with
              | .builtin b u => if b = "iota" then .builtin "int" true else .builtin b u
              | d => d
            M.bind (match (attr.get 0).1 with
                    | .builtin _ _ => setLastConstType (some stored)
                    | _ => M.ok ()) fun _ =>
            let sDef : SymbolDef := ⟨name, c.packageName, some stored, posStr c.fileName pos⟩
            M.bind (emitC (.propagatesTo (attr.get 0).2 (varFromSymbolDef sDef) sDef.Def)) fun _ =>
            M.bind (valueSpecElems c typeDef rest) fun syms => M.ok (sDef :: syms)

/-- The trailing N>V loop of ParseValueSpec (lines 310-328): use the
explicit type if present, else the remembered lastConstType, else error;
no contract is emitted for trailing names. -/
def valueSpecTrailing (c : Collab) (typeDef : Option DataType) :
    List (String × Nat) → M (List SymbolDef)
  | [] => M.ok []
  | (name, pos) :: rest =>
      M.bind (match typeDef with
              | some td => M.ok td
              | none =>
                  M.bind getLastConstType fun lc =>
                  match lc with
                  | none => M.err "No type in ValueSpec declaration for identifier"
                  | some td => M.ok td) fun td =>
      if name = "_" then valueSpecTrailing c (some td) rest
      else
        M.bind (valueSpecTrailing c (some td) rest) fun syms =>
        M.ok ((⟨name, c.packageName, some td, posStr c.fileName pos⟩ : SymbolDef) :: syms)

/-- True when the first data type of the attribute is the builtin iota
(the guard of line 196 deciding tuple branch vs element-wise branch). -/
def isIotaHead (attr : Attr) : Bool :=
  match (attr.get 0).1 with
  | .builtin b _ => b = "iota"
  | _ => false

/-- ParseValueSpec (statement_parser.go lines 169-331).  The check of
line 248 (nil element inside Values) is unrepresentable here because
go/parser never produces nil elements inside a non-nil Values slice. -/
def parseValueSpec (c : Collab) (vs : ValueSpec) : M (List SymbolDef) :=
  let nLen := vs.names.length
  let vLen := vs.values.length
  M.bind (match vs.tyOpt with
          | some te => M.bind (M.liftE (c.typeParse te)) fun td => M.ok (some td)
          | none => M.ok (none : Option DataType)) fun typeDef =>
  let restPart : M (List SymbolDef) :=
    if nLen < vLen then
      M.err "ValueSpec has less number of identifieries on LHS than a number of expressions on RHS"
    else
      M.bind (valueSpecElems c typeDef (vs.names.zip vs.values)) fun es =>
      M.bind (valueSpecTrailing c typeDef (vs.names.drop vLen)) fun ts =>
      M.ok (es ++ ts)
  if vLen = 1 then
    M.bind (oracleExpr c (vs.values.getD 0 (Expr.otherExpr ""))) fun attr =>
    if isIotaHead attr then restPart
    else if nLen ≠ attr.results.length then
      M.err "ValueSpec has different number of identifiers on LHS than a number of results of invocation on RHS"
    else valueSpecTuple c typeDef (vs.names.zip attr.results)
  else restPart

/-- One spec of a grouped GenDecl inside a function body; the Go code
panics on any other spec kind, which go/parser cannot produce inside a
DeclStmt of values or types. -/
inductive Spec where
  | valueSpec (vs : ValueSpec)
  | typeSpec (name : String) (ty : TypeExpr)

/-- The variable-storing loop of parseDeclStmt (lines 344-350): on an
AddVariable error the Go code does `return nil`, silently ending the
whole DeclStmt parse with success; the Bool result is false exactly in
that abort case. -/
def addVarsOrAbort : List SymbolDef → M Bool
  | [] => M.ok true
  | d :: rest => fun s =>
      match s.stack.addVariable d with
      | some st => addVarsOrAbort rest { s with stack := st }
      | none => .ok false s

/-- parseDeclStmt (lines 333-387) over the specs of the GenDecl carried
by the DeclStmt.  A type spec is inserted in two phases: first with a
null def so the name is visible to its own definition, then completed. -/
def parseDeclSpecs (c : Collab) : List Spec → M Unit
  | [] => M.ok ()
  | .valueSpec vs :: rest =>
      M.bind (parseValueSpec c vs) fun defs =>
      M.bind (addVarsOrAbort defs) fun cont =>
      if cont then parseDeclSpecs c rest else M.ok ()
  | .typeSpec name ty :: rest =>
      M.bind (addDataTypeChecked ⟨name, c.packageName, none, ""⟩) fun _ =>
      M.bind (M.liftE (c.typeParse ty)) fun td =>
      M.bind (addDataTypeChecked ⟨name, c.packageName, some td, ""⟩) fun _ =>
      parseDeclSpecs c rest

def parseDeclStmt (c : Collab) (specs : List Spec) : M Unit :=
  parseDeclSpecs c specs


/-- The C-interop detection of parseAssignStmt (lines 466-473): a call
whose Fun is a selector over the identifier C. -/
def isCgoCall : Expr → Bool
  | .call fn _ =>
      match fn with
      | .selector (.ident "C" _) _ => true
      | _ => false
  | _ => false

/-- The right-hand-side indexing closure selected by parseAssignStmt
when |Lhs| and |Rhs| differ (lines 440-563), reified as data. -/
inductive RhsMode where
  | general (rhs : List Expr)
  | callMode (attr : Attr) (isCgo : Bool)
  | indexMode (rhs0 : Expr)
  | assertMode (xTV : TypeVar) (td : DataType)

/-- rhsIndexer of parseAssignStmt: the general closure parses Rhs[i] and
requires a single result; the call closure reads the parsed tuple slot
(with the synthesised CGO error slot); the index closure synthesises the
Builtin{bool} comma-ok slot; the assert closure emits the
IsCompatibleWith against Constant(T) at slot 0 and the bool slot at 1. -/
def rhsIndexer (c : Collab) (mode : RhsMode) (i : Nat) : M (DataType × TypeVar) :=
  match mode with
  | .general rhs =>
      M.bind (oracleExpr c (rhs.getD i (Expr.otherExpr ""))) fun attr =>
      if attr.results.length ≠ 1 then
        M.err "Assignment element does not return a single result"
      else M.ok (attr.get 0)
  | .callMode attr isCgo =>
      if i < attr.results.length then M.ok (attr.get i)
      else if i = attr.results.length ∧ isCgo = true then
        M.ok (DataType.builtin "error" false, TypeVar.cgo)
      else M.fatal "rhsIndexer: out of range"
  | .indexMode rhs0 =>
      if i = 0 then
        M.bind (oracleExpr c rhs0) fun attr =>
        if attr.results.length ≠ 1 then
          M.err "Assignment element does not return a single result"
        else M.ok (attr.get 0)
      else if i = 1 then
        M.ok (DataType.builtin "bool" false,
              makeConstant c.packageName (DataType.builtin "bool" false))
      else M.err "Rhs index out of range"
  | .assertMode xTV td =>
      if i = 0 then
        let y := makeConstant c.packageName td
        M.bind (emitC (.isCompatibleWith xTV y (some td) false)) fun _ =>
        M.ok (td, y)
      else if i = 1 then
        M.ok (DataType.builtin "bool" false,
              makeConstant c.packageName (DataType.builtin "bool" false))
      else M.err "Rhs index out of range"

/-- The arity analysis of parseAssignStmt (lines 453-564) choosing the
Rhs indexing mode.  A single RHS of an unrecognized shape panics in the
Go code (the default arm of line 562).  A type assertion with a nil type
(x.(type)) cannot occur in a plain assignment of a valid program; the
TypeParser collaborator would fail on it, modelled as an error. -/
def chooseRhsMode (c : Collab) (lhsLen : Nat) (rhs : List Expr) : M RhsMode :=
  if lhsLen = rhs.length then M.ok (.general rhs)
  else if rhs.length ≠ 1 then
    M.err "Number of expressions on the left-hand side differs from ones on the right-hand side"
  else
    match rhs.getD 0 (Expr.otherExpr "") with
    | .call fn args =>
        let cgo := isCgoCall (.call fn args)
        M.bind (oracleExpr c (.call fn args)) fun attr =>
        if lhsLen = attr.results.length then M.ok (.callMode attr cgo)
        else if cgo then
          if lhsLen = attr.results.length + 1 then M.ok (.callMode attr cgo)
          else M.err "CGO: Number of expressions on the left-hand side differs from number of results of invocation on the right-hand side"
        else M.err "Number of expressions on the left-hand side differs from number of results of invocation on the right-hand side"
    | .indexExpr x idx =>
        if lhsLen ≠ 2 then
          M.err "Expecting two expression on the RHS when accessing an index expression"
        else M.ok (.indexMode (.indexExpr x idx))
    | .typeAssert x tyOpt =>
        if lhsLen ≠ 2 then
          M.err "Expecting two expression on the RHS when type-asserting an expression"
        else
          M.bind (oracleExpr c x) fun xAttr =>
          if xAttr.results.length ≠ 1 then
            M.err "Index expression is not a single expression"
          else
            match tyOpt with
            | none => M.err "TypeParser: nil type expression"
            | some te =>
                M.bind (M.liftE (c.typeParse te)) fun td =>
                M.ok (.assertMode (xAttr.get 0).2 td)
    | _ => M.fatal "Expecting *ast.CallExpr or *ast.IndexExpr"

/-- Loop control of the per-element LHS dispatch: stop is the silent
`return nil` of the selector, star-deref and index arms on an
expression-parser error (lines 625-645). -/
inductive LoopCtl where
  | next
  | stop

/-- One LHS element of parseAssignStmt after paren stripping (lines
583-648): blank identifier skipped; identifier with DEFINE stored and
PropagatesTo emitted (the AddVariable error is ignored); identifier
otherwise looked up (error when missing) and IsCompatibleWith emitted;
selector, star-deref and index parsed by the expression parser with the
sub-error silently dropped; anything else is an error. -/
def assignLhsOne (c : Collab) (tok : Tok) (e : Expr) (rhsDt : DataType) (rhsTv : TypeVar) :
    M LoopCtl :=
  match stripParens e with
  | .ident name pos =>
      if name = "_" then M.ok .next
      else if tok = .define then
        let sDef : SymbolDef := ⟨name, c.packageName, some rhsDt, posStr c.fileName pos⟩
        M.bind (addVarIgnored sDef) fun _ =>
        M.bind (emitC (.propagatesTo rhsTv (varFromSymbolDef sDef) sDef.Def)) fun _ =>
        M.ok .next
      else
        M.bind (lookupVarM name) fun r =>
        match r with
        | none => M.err ("Symbol " ++ name ++ " not found")
        | some sDef =>
            M.bind (emitC (.isCompatibleWith rhsTv (varFromSymbolDef sDef) sDef.Def false)) fun _ =>
            M.ok .next
  | .selector x sel =>
      oracleOr c (.selector x sel) (M.ok .stop) fun attr =>
        M.bind (emitC (.isCompatibleWith rhsTv (attr.get 0).2 (some (attr.get 0).1) false)) fun _ =>
        M.ok .next
  | .star x =>
      oracleOr c (.star x) (M.ok .stop) fun attr =>
        M.bind (emitC (.isCompatibleWith rhsTv (attr.get 0).2 (some (attr.get 0).1) false)) fun _ =>
        M.ok .next
  | .indexExpr x idx =>
      oracleOr c (.indexExpr x idx) (M.ok .stop) fun attr =>
        M.bind (emitC (.isCompatibleWith rhsTv (attr.get 0).2 (some (attr.get 0).1) false)) fun _ =>
        M.ok .next
  | _ => M.err "Lhs of an assignment type is not recognized"

/-- The LHS loop of parseAssignStmt: the Rhs indexer runs first for each
position, then the LHS element is dispatched. -/
def assignLoop (c : Collab) (tok : Tok) (mode : RhsMode) : List Expr → Nat → M Unit
  | [], _ => M.ok ()
  | e :: rest, i =>
      M.bind (rhsIndexer c mode i) fun p =>
      M.bind (assignLhsOne c tok e p.1 p.2) fun ctl =>
      match ctl with
      | .next => assignLoop c tok mode rest (i + 1)
      | .stop => M.ok ()

/-- parseAssignStmt (lines 437-651). -/
def parseAssignStmt (c : Collab) (lhs : List Expr) (tok : Tok) (rhs : List Expr) : M Unit :=
  M.bind (chooseRhsMode c lhs.length rhs) fun mode =>
  assignLoop c tok mode lhs 0

/-- parseSendStmt (lines 401-419). -/
def parseSendStmt (c : Collab) (chE vE : Expr) : M Unit :=
  M.bind (oracleExpr c chE) fun chanAttr =>
  M.bind (oracleExpr c vE) fun valueAttr =>
  emitC (.isSendableTo (valueAttr.get 0).2 (chanAttr.get 0).2)

/-- parseIncDecStmt (lines 421-435). -/
def parseIncDecStmt (c : Collab) (x : Expr) : M Unit :=
  M.bind (oracleExpr c x) fun attr =>
  emitC (.isIncDecable (attr.get 0).2)

/-- The Comm statement of one select communication clause; the Go code
errors on any other statement kind (the default arm of line 1050). -/
inductive CommStmt where
  | exprComm (x : Expr)
  | sendComm (ch v : Expr)
  | assignComm (lhs : List Expr) (tok : Tok) (rhs : List Expr)
  | otherComm (tag : String)

/-- The LHS handling of a select receive clause (lines 945-1049), after
the RHS channel has been parsed: a fresh virtual variable receives the
IsReceiveableFrom contract; one or two LHS positions are bound (DEFINE)
or checked (assignment). -/
def commRecvLhs (c : Collab) (lhs : List Expr) (tok : Tok)
    (chTv : TypeVar) (chValue : Option DataType) : M Unit :=
  match lhs with
  | [] => M.err "Expecting at least one expression on the LHS of a clause assigment"
  | [e1] =>
      M.bind newVirtualVar fun y =>
      M.bind (emitC (.isReceiveableFrom chTv y none)) fun _ =>
      if tok = .define then
        match e1 with
        | .ident name pos =>
            let sDef : SymbolDef := ⟨name, c.packageName, chValue, posStr c.fileName pos⟩
            M.bind (addVarIgnored sDef) fun _ =>
            emitC (.propagatesTo y (varFromSymbolDef sDef) none)
        | _ => M.err "Expecting an identifier in select clause due to := assignment"
      else
        M.bind (oracleExpr c e1) fun assignAttr =>
        emitC (.isCompatibleWith y (assignAttr.get 0).2 none false)
  | [e1, e2] =>
      M.bind newVirtualVar fun y =>
      M.bind (emitC (.isReceiveableFrom chTv y none)) fun _ =>
      if tok = .define then
        match e1 with
        | .ident n1 p1 =>
            match e2 with
            | .ident n2 p2 =>
                let sDef1 : SymbolDef := ⟨n1, c.packageName, chValue, posStr c.fileName p1⟩
                M.bind (addVarIgnored sDef1) fun _ =>
                M.bind (emitC (.propagatesTo y (varFromSymbolDef sDef1) none)) fun _ =>
                let sDef2 : SymbolDef :=
                  ⟨n2, c.packageName, some (DataType.builtin "bool" false), posStr c.fileName p2⟩
                M.bind (addVarIgnored sDef2) fun _ =>
                emitC (.propagatesTo (makeConstant "builtin" (DataType.builtin "bool" false))
                        (varFromSymbolDef sDef2) none)
            | _ => M.err "Expecting an identifier in select clause due to := assignment"
        | _ => M.err "Expecting an identifier in select clause due to := assignment"
      else
        M.bind (oracleExpr c e1) fun assignAttr =>
        M.bind (emitC (.isCompatibleWith y (assignAttr.get 0).2 none false)) fun _ =>
        M.bind (oracleExpr c e2) fun assignOkAttr =>
        emitC (.isCompatibleWith (makeConstant "builtin" (DataType.builtin "bool" false))
                (assignOkAttr.get 0).2 none false)
  | _ => M.err "Expecting at most two expression on the LHS of a clause assigment"

/-- The receive-clause assignment of a select statement (lines 917-944):
a single RHS that must be a unary arrow over an expression whose single
data type is a channel. -/
def parseCommAssign (c : Collab) (lhs : List Expr) (tok : Tok) (rhs : List Expr) : M Unit :=
  if rhs.length ≠ 1 then
    M.err "Expecting a single expression on the RHS of a clause assigment"
  else
    match rhs.getD 0 (Expr.otherExpr "") with
    | .unary op x =>
        if op ≠ .arrow then M.err "Expecting unary expression in a form of <-chan"
        else
          M.bind (oracleExpr c x) fun attr =>
          if attr.results.length ≠ 1 then
            M.err "Expecting unary expression in a form of <-chan"
          else
            match (attr.get 0).1 with
            | .channelT _ value => commRecvLhs c lhs tok (attr.get 0).2 value
            | _ => M.err "Expecting unary expression in a form of <-chan"
    | _ => M.err "Expecting unary expression in a form of <-chan"

/-- Dispatch on the Comm statement of a CommClause (lines 899-1052). -/
def parseCommStmt (c : Collab) : CommStmt → M Unit
  | .exprComm x => M.bind (oracleExpr c x) fun _ => M.ok ()
  | .sendComm chE vE =>
      M.bind (oracleExpr c chE) fun sendChanAttr =>
      M.bind (oracleExpr c vE) fun sendValueAttr =>
      emitC (.isSendableTo (sendValueAttr.get 0).2 (sendChanAttr.get 0).2)
  | .assignComm lhs tok rhs => parseCommAssign c lhs tok rhs
  | .otherComm _ => M.err "Unable to recognize selector CommClause CommCase"


/-- parseReceiver (lines 31-81): the receiver type must be T or *T with T
an in-scope identifier; the lookup failure is returned so the driver can
postpone the body; the allocated-symbols log records the use unless
skipping was requested. -/
def parseReceiver (c : Collab) (receiver : Expr) (skipAllocated : Bool) : M DataType :=
  match receiver with
  | .ident name pos =>
      M.bind (lookupAnyM name) fun r =>
      match r with
      | none => M.err ("Symbol " ++ name ++ " not found")
      | some d =>
          M.bind (if skipAllocated then M.ok ()
                  else addAllocation d.Package name (posStr c.fileName pos)) fun _ =>
          M.ok (DataType.identifier name c.packageName)
  | .star x =>
      match x with
      | .ident name pos =>
          M.bind (lookupAnyM name) fun r =>
          match r with
          | none => M.err ("Symbol " ++ name ++ " not found")
          | some d =>
              M.bind (if skipAllocated then M.ok ()
                      else addAllocation d.Package name (posStr c.fileName pos)) fun _ =>
              M.ok (DataType.pointer (DataType.identifier name c.packageName))
      | _ => M.err "Method receiver is not a pointer to an identifier"
  | _ => M.err "Method receiver is not a pointer to an identifier not an identifier"

/-- One field of a parameter or result list: names with positions and a
type expression; names is empty for an anonymous field. -/
structure Field where
  names : List (String × Nat)
  ty : TypeExpr

/-- The receiver field list entry: names plus the receiver type
expression (ast.Expr, an identifier or a star expression). -/
structure RecvField where
  names : List (String × Nat)
  ty : Expr

/-- The per-name symbol collection of one parameter or result field
(lines 1439-1451 and 1462-1474): each name gets the field's parsed type,
a PropagatesTo from the type constant, and is collected for late
insertion. -/
def headFieldNames (c : Collab) (dt : DataType) : List (String × Nat) → M (List SymbolDef)
  | [] => M.ok []
  | (n, p) :: rest =>
      let sDef : SymbolDef := ⟨n, "", some dt, posStr c.fileName p⟩
      M.bind (emitC (.propagatesTo (makeConstant c.packageName dt) (varFromSymbolDef sDef) sDef.Def)) fun _ =>
      M.bind (headFieldNames c dt rest) fun syms => M.ok (sDef :: syms)

/-- The field loop over a parameter or result list (lines 1430-1476); a
type-parse failure aborts with the error. -/
def headFields (c : Collab) : List Field → M (List SymbolDef)
  | [] => M.ok []
  | f :: rest =>
      M.bind (M.liftE (c.typeParse f.ty)) fun dt =>
      M.bind (headFieldNames c dt f.names) fun syms =>
      M.bind (headFields c rest) fun more => M.ok (syms ++ more)

/-- Late insertion of all collected parameter and result symbols (lines
1478-1480); the AddVariable result is ignored at this site. -/
def addAllIgnored : List SymbolDef → M Unit
  | [] => M.ok ()
  | d :: rest => M.bind (addVarIgnored d) fun _ => addAllIgnored rest


/-- The guard of a type switch (statement.Assign): either an assignment
v := x.(type), a bare expression statement x.(type), or anything else
(rejected). -/
inductive TSGuard where
  | assignGuard (lhs rhs : List Expr)
  | exprGuard (x : Expr)
  | otherGuard (tag : String)

/-- The weak-compatibility loop over the listed types of a multi-type
type-switch case (lines 804-814). -/
def tsCaseTypes (c : Collab) (tv : TypeVar) : List TypeExpr → M Unit
  | [] => M.ok ()
  | te :: rest =>
      M.bind (M.liftE (c.typeParse te)) fun rhsType =>
      M.bind (emitC (.isCompatibleWith (makeConstant c.packageName rhsType) tv none true)) fun _ =>
      tsCaseTypes c tv rest

/-- The guard binding of one type-switch case (lines 815-830 and
841-856): the guard variable is re-declared per case with the case type
(single type) or with the empty interface (default or multi-type). -/
def tsCaseBind (c : Collab) (rhsId : Option String) (dt : DataType) (pos : Nat) : M Unit :=
  match rhsId with
  | none => M.ok ()
  | some n =>
      let sDef : SymbolDef := ⟨n, c.packageName, some dt, posStr c.fileName pos⟩
      M.bind (addVarIgnored sDef) fun _ =>
      emitC (.propagatesTo (makeConstant c.packageName dt) (varFromSymbolDef sDef) none)

/-- Sequencing of one item's closure with the rest of a loop where the
closure's error return is turned into a silent success of the whole loop
(the `return nil` of lines 868-870). -/
def M.seqOrStop (x : M Unit) (k : M Unit) : M Unit := fun s =>
  match x s with
  | .ok _ s' => k s'
  | .err _ s' => .ok () s'
  | .fatal m s' => .fatal m s'

/-- The non-binding part of one type-switch case: weak compatibility
contracts for the listed types and the guard re-binding. -/
def tsCaseCore (c : Collab) (tv : TypeVar) (rhsId : Option String)
    (types : List TypeExpr) (pos : Nat) : M Unit :=
  if types.length ≠ 1 then
    M.bind (tsCaseTypes c tv types) fun _ =>
    tsCaseBind c rhsId (DataType.interfaceT []) pos
  else
    M.bind (M.liftE (c.typeParse (types.getD 0 (TypeExpr.mk "")))) fun rhsType =>
    M.bind (emitC (.isCompatibleWith (makeConstant c.packageName rhsType) tv none true)) fun _ =>
    tsCaseBind c rhsId rhsType pos

/-- The key handling of parseRangeStmt (lines 1167-1220).  The Bool is
false when the assign arm silently drops an expression-parser error and
ends the whole range parse with success (lines 1210-1212). -/
def rangeKeyPart (c : Collab) (tok : Tok) (xTv : TypeVar) (key : Option DataType) :
    Option Expr → M Bool
  | none => M.ok true
  | some ke =>
      if tok = .define then
        match ke with
        | .ident name pos =>
            if name = "_" then M.ok true
            else
              let sDef : SymbolDef := ⟨name, c.packageName, key, posStr c.fileName pos⟩
              M.bind (addVarChecked sDef) fun _ =>
              M.bind (emitC (.propagatesTo (TypeVar.rangeKey xTv) (varFromSymbolDef sDef) key)) fun _ =>
              M.ok true
        | _ => M.err "Expected key as an identifier in the for range statement"
      else
        match stripParens ke with
        | .ident name pos =>
            if name = "_" then M.ok true
            else
              oracleOr c (.ident name pos) (M.ok false) fun keyAttr =>
                M.bind (emitC (.isCompatibleWith (TypeVar.rangeKey xTv) (keyAttr.get 0).2
                         (some (keyAttr.get 0).1) false)) fun _ =>
                M.ok true
        | _ => M.err "Expected key as an identifier in the for range statement"

/-- The value handling of parseRangeStmt (lines 1222-1273).  In the
assign arm the source strips parentheses into valueExpr but then type
asserts and parses the ORIGINAL statement.Value (the preserved
inconsistency noted in the spec design notes); the expression-parser
error is silently dropped there (lines 1263-1265). -/
def rangeValuePart (c : Collab) (tok : Tok) (xTv : TypeVar) (value : Option DataType) :
    Option Expr → M Bool
  | none => M.ok true
  | some ve =>
      if tok = .define then
        match ve with
        | .ident name pos =>
            if name = "_" then M.ok true
            else
              match value with
              | none => M.ok true
              | some _ =>
                  let sDef : SymbolDef := ⟨name, c.packageName, value, posStr c.fileName pos⟩
                  M.bind (addVarChecked sDef) fun _ =>
                  M.bind (emitC (.propagatesTo (TypeVar.rangeValue xTv) (varFromSymbolDef sDef) value)) fun _ =>
                  M.ok true
        | _ => M.err "Expected value as an identifier in the for range statement"
      else
        let stripped := stripParens ve
        match ve with
        | .ident name pos =>
            if name = "_" then M.ok true
            else
              match value with
              | none => M.ok true
              | some _ =>
                  let _ := stripped
                  oracleOr c (.ident name pos) (M.ok false) fun valueAttr =>
                    M.bind (emitC (.isCompatibleWith (TypeVar.rangeValue xTv) (valueAttr.get 0).2
                             (some (valueAttr.get 0).1) false)) fun _ =>
                    M.ok true
        | _ => M.err "Expected value as an identifier in the for range statement"

/-- The key/value derivation table of parseRangeStmt (lines 1127-1165).
For Builtin and Identifier the source constructs a non-string complaint
with fmt.Errorf but discards it (no return), so every Builtin and every
Identifier derives int/rune; none means the default arm's panic. -/
def rangeKeyValue : DataType → Option (Option DataType × Option DataType)
  | .arrayT _ e => some (some (DataType.builtin "int" false), some e)
  | .sliceT e => some (some (DataType.builtin "int" false), some e)
  | .builtin _ _ =>
      some (some (DataType.builtin "int" false), some (DataType.builtin "rune" false))
  | .identifier _ _ =>
      some (some (DataType.builtin "int" false), some (DataType.builtin "rune" false))
  | .mapT k v => some (some k, some v)
  | .channelT _ v => some (v, none)
  | .ellipsisT e => some (some (DataType.builtin "int" false), some e)
  | _ => none

/-- The resolution of the iteration expression (lines 1111-1125): strip
one level of pointer, then FindFirstNonidDataType. -/
def stripOnePointer : DataType → DataType
  | .pointer d => d
  | d => d

/-- The tag type variable of a value switch (lines 679-688): the
Constant bool of package builtin when the tag is absent, else the tag's
parsed type variable. -/
def switchTagTv (c : Collab) : Option Expr → M TypeVar
  | none => M.ok (makeConstant "builtin" (DataType.builtin "bool" false))
  | some te =>
      M.bind (oracleExpr c te) fun attr => M.ok (attr.get 0).2

/-- The case-expression loop of one value-switch case (lines 695-704):
an expression-parser error is dropped and ends the whole switch parse
with success (the `return nil` of line 698); false signals that abort. -/
def caseExprsLoop (c : Collab) (tagTv : TypeVar) : List Expr → M Bool
  | [] => M.ok true
  | e :: rest =>
      oracleOr c e (M.ok false) fun caseAttr =>
        M.bind (emitC (.isCompatibleWith (caseAttr.get 0).2 tagTv none false)) fun _ =>
        caseExprsLoop c tagTv rest

/-- The result-expression loop of a return statement (lines 1352-1358). -/
def returnResults (c : Collab) : List Expr → M Unit
  | [] => M.ok ()
  | e :: rest =>
      M.bind (oracleExpr c e) fun _ => returnResults c rest


mutual

/-- The go/ast statement forms dispatched by Parse (lines 1336-1384).
Block bodies are statement lists; if/for/range bodies are the lists of
their *ast.BlockStmt. -/
inductive Stmt where
  | declStmt (specs : List Spec)
  | labeledStmt (label : String) (inner : Stmt)
  | exprStmt (x : Expr)
  | sendStmt (ch v : Expr)
  | incDecStmt (x : Expr)
  | assignStmt (lhs : List Expr) (tok : Tok) (rhs : List Expr)
  | goStmt (callE : Expr)
  | returnStmt (results : List Expr)
  | branchStmt
  | blockStmt (body : List Stmt)
  | ifStmt (ini : Option Stmt) (cond : Expr) (body : List Stmt) (els : Option Stmt)
  | switchStmt (ini : Option Stmt) (tag : Option Expr) (body : List SwitchItem)
  | typeSwitchStmt (ini : Option Stmt) (guard : TSGuard) (body : List TSItem)
  | selectStmt (body : List CommItem)
  | forStmt (ini : Option Stmt) (cond : Option Expr) (post : Option Stmt) (body : List Stmt)
  | rangeStmt (key val : Option Expr) (tok : Tok) (x : Expr) (body : List Stmt)
  | deferStmt (callE : Expr)
  | emptyStmt

/-- One statement of a value-switch body: a CaseClause or anything else
(which parseSwitchStmt rejects, line 691-694). -/
inductive SwitchItem where
  | caseClause (exprs : List Expr) (body : List Stmt)
  | nonCase (tag : String)

/-- One statement of a type-switch body with the clause position used
for the re-declared guard variable. -/
inductive TSItem where
  | caseClause (types : List TypeExpr) (pos : Nat) (body : List Stmt)
  | nonCase (tag : String)

/-- One statement of a select body: a CommClause (with default's empty
Comm as none) or anything else (rejected, lines 891-894). -/
inductive CommItem where
  | commClause (comm : Option CommStmt) (body : List Stmt)
  | nonComm (tag : String)

end

/-- The clause rejected by parseSelectStmt when a select body statement
is not a CommClause (lines 891-894); the scope of the per-clause closure
has already been pushed when the check fires. -/
def selectBadClause : M Unit :=
  M.scoped (M.err "Select must be a list of commClause statements" : M Unit)

/-- The Comm statement of a clause, or nothing for the default clause
(lines 897-1053). -/
def commPart (c : Collab) : Option CommStmt → M Unit
  | some cs => parseCommStmt c cs
  | none => M.ok ()

/-- The condition part of a for statement (lines 1081-1085). -/
def forCondPart (c : Collab) : Option Expr → M Unit
  | some ce => M.bind (oracleExpr c ce) fun _ => M.ok ()
  | none => M.ok ()

mutual

/-- Parse (lines 1336-1384), the per-statement dispatch of the statement
parser.  A case body, select clause body, if/for/range body is parsed
via an &ast.BlockStmt wrapper, i.e. in its own pushed scope; a nil body
and an empty body are indistinguishable here (parsing an empty block
only pushes and pops an empty scope). -/
def parseStmt (c : Collab) (st : Stmt) : M Unit :=
  match st with
  | .declStmt specs => parseDeclStmt c specs
  | .labeledStmt _ inner => parseStmt c inner
  | .exprStmt x => M.bind (oracleExpr c x) fun _ => M.ok ()
  | .sendStmt chE vE => parseSendStmt c chE vE
  | .incDecStmt x => parseIncDecStmt c x
  | .assignStmt lhs tok rhs => parseAssignStmt c lhs tok rhs
  | .goStmt callE => M.bind (oracleExpr c callE) fun _ => M.ok ()
  | .returnStmt results => returnResults c results
  | .branchStmt => M.ok ()
  | .blockStmt body => parseBlockStmt c body
  | .ifStmt ini cond body els => parseIfStmt c ini cond body els
  | .switchStmt ini tag items => parseSwitchStmt c ini tag items
  | .typeSwitchStmt ini guard items => parseTypeSwitchStmt c ini guard items
  | .selectStmt items => parseSelectStmt c items
  | .forStmt ini cond post body => parseForStmt c ini cond post body
  | .rangeStmt keyE valE tok x body => parseRangeStmt c keyE valE tok x body
  | .deferStmt callE => M.bind (oracleExpr c callE) fun _ => M.ok ()
  | .emptyStmt => M.ok ()
termination_by 10 * sizeOf st + 9
decreasing_by all_goals (simp_wf; try omega)

/-- The statement loop shared by ParseFuncBody and parseBlockStmt: stop
at the first error. -/
def stmtList (c : Collab) (l : List Stmt) : M Unit :=
  match l with
  | [] => M.ok ()
  | s :: rest => M.bind (parseStmt c s) fun _ => stmtList c rest
termination_by 10 * sizeOf l
decreasing_by all_goals (simp_wf; try omega)

/-- parseBlockStmt (lines 1313-1324). -/
def parseBlockStmt (c : Collab) (body : List Stmt) : M Unit :=
  M.scoped (stmtList c body)
termination_by 10 * sizeOf body + 8
decreasing_by all_goals (simp_wf; try omega)

/-- parseIfStmt (lines 1284-1311): the init clause gets its own scope
that also encloses condition, body and else. -/
def parseIfStmt (c : Collab) (ini : Option Stmt) (cond : Expr) (body : List Stmt)
    (els : Option Stmt) : M Unit :=
  match ini with
  | some i => M.scoped (M.bind (parseStmt c i) fun _ => ifCore c cond body els)
  | none => ifCore c cond body els
termination_by 10 * (1 + sizeOf ini + sizeOf cond + sizeOf body + sizeOf els) + 8
decreasing_by all_goals (simp_wf; try omega)

/-- Condition, body and else of an if statement. -/
def ifCore (c : Collab) (cond : Expr) (body : List Stmt) (els : Option Stmt) : M Unit :=
  M.bind (oracleExpr c cond) fun _ =>
  M.bind (M.scoped (stmtList c body)) fun _ =>
  ifElsePart c els
termination_by 10 * (1 + sizeOf cond + sizeOf body + sizeOf els) + 7
decreasing_by all_goals (simp_wf; try omega)

/-- The else branch of an if statement (lines 1307-1309). -/
def ifElsePart (c : Collab) (els : Option Stmt) : M Unit :=
  match els with
  | some e => parseStmt c e
  | none => M.ok ()
termination_by 10 * sizeOf els + 6
decreasing_by all_goals (simp_wf; try omega)

/-- parseSwitchStmt (lines 665-716): optional init in its own scope that
also encloses tag and body. -/
def parseSwitchStmt (c : Collab) (ini : Option Stmt) (tag : Option Expr)
    (items : List SwitchItem) : M Unit :=
  match ini with
  | some i => M.scoped (M.bind (parseStmt c i) fun _ => switchCore c tag items)
  | none => switchCore c tag items
termination_by 10 * (1 + sizeOf ini + sizeOf tag + sizeOf items) + 8
decreasing_by all_goals (simp_wf; try omega)

/-- Tag resolution and body loop of a value switch. -/
def switchCore (c : Collab) (tag : Option Expr) (items : List SwitchItem) : M Unit :=
  M.bind (switchTagTv c tag) fun tagTv => switchItems c tagTv items
termination_by 10 * (1 + sizeOf tag + sizeOf items) + 7
decreasing_by all_goals (simp_wf; try omega)

/-- The body loop of parseSwitchStmt (lines 690-713). -/
def switchItems (c : Collab) (tagTv : TypeVar) (items : List SwitchItem) : M Unit :=
  match items with
  | [] => M.ok ()
  | .nonCase _ :: _ => M.err "Expected *ast.CaseClause in switch's body"
  | .caseClause exprs body :: rest =>
      M.bind (caseExprsLoop c tagTv exprs) fun cont =>
      if cont then
        M.bind (M.scoped (stmtList c body)) fun _ =>
        switchItems c tagTv rest
      else M.ok ()
termination_by 10 * sizeOf items
decreasing_by all_goals (simp_wf; try omega)

/-- parseTypeSwitchStmt (lines 718-874): optional init scope enclosing
the guard scope. -/
def parseTypeSwitchStmt (c : Collab) (ini : Option Stmt) (guard : TSGuard)
    (items : List TSItem) : M Unit :=
  match ini with
  | some i => M.scoped (M.bind (parseStmt c i) fun _ => tsOuter c guard items)
  | none => tsOuter c guard items
termination_by 10 * (1 + sizeOf ini + sizeOf guard + sizeOf items) + 8
decreasing_by all_goals (simp_wf; try omega)

/-- The scope of line 734 enclosing the guard dispatch and the cases. -/
def tsOuter (c : Collab) (guard : TSGuard) (items : List TSItem) : M Unit :=
  M.scoped (tsGuard c guard items)
termination_by 10 * (1 + sizeOf guard + sizeOf items) + 7
decreasing_by all_goals (simp_wf; try omega)

/-- Dispatch on the type-switch guard statement (lines 740-792). -/
def tsGuard (c : Collab) (guard : TSGuard) (items : List TSItem) : M Unit :=
  match guard with
  | .assignGuard glhs grhs => M.scoped (tsAssignGuard c glhs grhs items)
  | .exprGuard x => tsExprGuard c x items
  | .otherGuard _ => M.err "Unsupported statement in type switch"
termination_by 10 * (1 + sizeOf guard + sizeOf items) + 6
decreasing_by all_goals (simp_wf; try omega)

/-- The v := x.(type) guard (lines 741-776): single LHS and RHS, RHS a
type assertion; the expression-parser error on x is silently dropped
(return nil, line 762). -/
def tsAssignGuard (c : Collab) (glhs grhs : List Expr) (items : List TSItem) : M Unit :=
  if glhs.length ≠ 1 then
    M.err "LHS of the type assert assignment must be a single assignable expression"
  else if grhs.length ≠ 1 then
    M.err "RHS of the type assert assignment must be a single expression"
  else
    match grhs.getD 0 (Expr.otherExpr "") with
    | .typeAssert gx _ =>
        oracleOr c gx (M.ok ()) fun typeAttr =>
          tsGuardLhs c (glhs.getD 0 (Expr.otherExpr "")) (typeAttr.get 0).2 items
    | _ => M.err "Expecting type assert in type switch assignemnt statement"
termination_by 10 * sizeOf items + 5
decreasing_by all_goals (simp_wf; try omega)

/-- The LHS of the guard assignment must be an identifier; a blank
identifier declares no binding (lines 766-776). -/
def tsGuardLhs (c : Collab) (lhs0 : Expr) (tv : TypeVar) (items : List TSItem) : M Unit :=
  match lhs0 with
  | .ident n _ => tsItems c tv (if n = "_" then none else some n) items
  | _ => M.err "Expecting identifier on the RHS of the type switch assigment"
termination_by 10 * sizeOf items + 4
decreasing_by all_goals (simp_wf; try omega)

/-- The bare x.(type) guard (lines 777-789); the expression-parser error
on x is silently dropped (return nil, line 786). -/
def tsExprGuard (c : Collab) (x : Expr) (items : List TSItem) : M Unit :=
  match x with
  | .typeAssert gx _ =>
      oracleOr c gx (M.ok ()) fun typeAttr =>
        tsItems c (typeAttr.get 0).2 none items
  | _ => M.err "Expecting type assert in type switch"
termination_by 10 * sizeOf items + 5
decreasing_by all_goals (simp_wf; try omega)

/-- The body loop of parseTypeSwitchStmt (lines 794-871): each case runs
in its own scope; an error inside the case closure ends the whole type
switch with success. -/
def tsItems (c : Collab) (tv : TypeVar) (rhsId : Option String) (items : List TSItem) : M Unit :=
  match items with
  | [] => M.ok ()
  | .nonCase _ :: _ => M.err "Expected *ast.CaseClause in switch's body"
  | .caseClause types pos body :: rest =>
      M.seqOrStop
        (M.scoped (
          M.bind (tsCaseCore c tv rhsId types pos) fun _ =>
          M.scoped (stmtList c body)))
        (tsItems c tv rhsId rest)
termination_by 10 * sizeOf items
decreasing_by all_goals (simp_wf; try omega)

/-- The clause loop of parseSelectStmt (lines 884-1067): each clause in
its own scope; clause errors propagate. -/
def parseSelectStmt (c : Collab) (items : List CommItem) : M Unit :=
  match items with
  | [] => M.ok ()
  | .nonComm _ :: _ => selectBadClause
  | .commClause comm body :: rest =>
      M.bind (M.scoped (
        M.bind (commPart c comm) fun _ =>
        M.scoped (stmtList c body))) fun _ =>
      parseSelectStmt c rest
termination_by 10 * sizeOf items
decreasing_by all_goals (simp_wf; try omega)

/-- parseForStmt (lines 1072-1092): one scope surrounds init, condition,
post and body; the errors of init and post are discarded by the source
(their return values are not inspected). -/
def parseForStmt (c : Collab) (ini : Option Stmt) (cond : Option Expr) (post : Option Stmt)
    (body : List Stmt) : M Unit :=
  M.scoped (
    M.bind (forOpt c ini) fun _ =>
    M.bind (forCondPart c cond) fun _ =>
    M.bind (forOpt c post) fun _ =>
    M.scoped (stmtList c body))
termination_by 10 * (1 + sizeOf ini + sizeOf cond + sizeOf post + sizeOf body) + 8
decreasing_by all_goals (simp_wf; try omega)

/-- An optional init or post simple statement of a for statement, parsed
with the returned error discarded (lines 1077-1079 and 1087-1089). -/
def forOpt (c : Collab) (o : Option Stmt) : M Unit :=
  match o with
  | some i => M.discardErr (parseStmt c i)
  | none => M.ok ()
termination_by 10 * sizeOf o + 7
decreasing_by all_goals (simp_wf; try omega)

/-- parseRangeStmt (lines 1095-1276): parse the iteration expression,
open the range scope, emit IsRangeable, resolve the iteration type and
derive key/value. -/
def parseRangeStmt (c : Collab) (keyE valE : Option Expr) (tok : Tok) (x : Expr)
    (body : List Stmt) : M Unit :=
  M.bind (oracleExpr c x) fun xAttr =>
  M.scoped (
    M.bind (emitC (.isRangeable (xAttr.get 0).2)) fun _ =>
    M.bind (M.liftE (c.findFirstNonid (stripOnePointer (xAttr.get 0).1))) fun rangeExpr =>
    rangeCore c tok (xAttr.get 0).2 rangeExpr keyE valE body)
termination_by 10 * sizeOf body + 8
decreasing_by all_goals (simp_wf; try omega)

/-- Key/value derivation and binding of a range statement, then the
body in its own nested scope. -/
def rangeCore (c : Collab) (tok : Tok) (xTv : TypeVar) (rangeExpr : DataType)
    (keyE valE : Option Expr) (body : List Stmt) : M Unit :=
  match rangeKeyValue rangeExpr with
  | none => M.fatal "Unknown type of range expression"
  | some (key, value) =>
      M.bind (rangeKeyPart c tok xTv key keyE) fun cont =>
      if cont then
        M.bind (rangeValuePart c tok xTv value valE) fun cont2 =>
        if cont2 then M.scoped (stmtList c body) else M.ok ()
      else M.ok ()
termination_by 10 * sizeOf body + 7
decreasing_by all_goals (simp_wf; try omega)

end


/-- The function declaration handed over by the driver: receiver field
list, parameter and result field lists, and the optional body (nil for
declarations whose definition lives in assembly files). -/
structure FuncDecl where
  name : Option String
  recv : Option (List RecvField)
  params : Option (List Field)
  results : Option (List Field)
  body : Option (List Stmt)

/-- parseFuncHeadVariables (lines 1386-1482): receiver checks and
binding, then parameter and result fields parsed in order but inserted
only at the end (the two-phase ordering preventing a parameter name from
shadowing a qualified name later in the signature).  The allocation
table's Lock/Unlock bracket is a no-op here. -/
def parseFuncHeadVariables (c : Collab) (fd : FuncDecl) : M Unit :=
  M.bind (match fd.recv with
          | none => M.ok ()
          | some recvList =>
              if recvList.length ≠ 1 then M.err "Method has no receiver"
              else
                let f0 := recvList.getD 0 ⟨[], Expr.otherExpr ""⟩
                if f0.names.length > 2 then M.err "Receiver is not a single parameter"
                else
                  M.bind (parseReceiver c f0.ty true) fun recvDef =>
                  match f0.names with
                  | [] => M.ok ()
                  | (n, p) :: _ =>
                      let sDef : SymbolDef := ⟨n, "", some recvDef, posStr c.fileName p⟩
                      M.bind (emitC (.propagatesTo (makeConstant c.packageName recvDef)
                               (varFromSymbolDef sDef) sDef.Def)) fun _ =>
                      addVarIgnored sDef) fun _ =>
  M.bind (match fd.params with
          | none => M.ok []
          | some fl => headFields c fl) fun pDefs =>
  M.bind (match fd.results with
          | none => M.ok []
          | some fl => headFields c fl) fun rDefs =>
  addAllIgnored (pDefs ++ rDefs)

/-- Pop the topmost scope from the outcome state of a computation on
every exit path (one half of the deferred double pop of ParseFuncBody). -/
def popAfter (x : M Unit) : M Unit := fun s =>
  match x s with
  | .ok a s' => .ok a { s' with stack := s'.stack.pop }
  | .err m s' => .err m { s' with stack := s'.stack.pop }
  | .fatal m s' => .fatal m { s' with stack := s'.stack.pop }

/-- The body statements of a function declaration; a nil body (declared
only, defined in assembly) parses nothing and succeeds (lines 153-157). -/
def funcBody (c : Collab) : Option (List Stmt) → M Unit
  | none => M.ok ()
  | some stmts => stmtList c stmts

/-- ParseFuncBody (lines 133-167): push the header scope, bind the
header (popping and returning the wrapped error on failure), push the
body scope with both pops deferred, return immediately for a nil body,
else parse the statements in order.  A panic raised by a body statement
unwinds through the deferred pops; the header binder cannot panic, and
its error return pops only the header scope (no defer is registered at
that point).  The scoped/popAfter composition performs exactly the
push-push then pop-pop bracketing of the source on every exit path. -/
def ParseFuncBody (c : Collab) (fd : FuncDecl) : M Unit := fun s =>
  match parseFuncHeadVariables c fd { s with stack := s.stack.push } with
  | .err m s2 => .err ("sp.ParseFuncBody: " ++ m) { s2 with stack := s2.stack.pop }
  | .fatal m s2 => .fatal m s2
  | .ok _ s2 => (popAfter (M.scoped (funcBody c fd.body))) s2

/-- The stack after a computation has the same depth as before and the
tables strictly below the top are untouched (statements only add
symbols to the topmost scope, and every push is bracketed by a pop). -/
def SameShape (a b : SStack) : Prop :=
  b.tables.length = a.tables.length ∧ b.tables.tail = a.tables.tail

/-- One parser step leaves the stack shape intact and only appends to
the contract table (spec P2 and P3). -/
def Evolves (s0 s1 : PState) : Prop :=
  SameShape s0.stack s1.stack ∧ ∃ t, s1.contracts = s0.contracts ++ t

/-- A computation whose every run evolves the state. -/
def MPres {α : Type} (x : M α) : Prop := ∀ s, Evolves s (x s).state

theorem sameShape_refl {a : SStack} : SameShape a a := And.intro (Eq.refl _) (Eq.refl _)

theorem sameShape_trans {a b c : SStack} (h1 : SameShape a b) (h2 : SameShape b c) :
    SameShape a c := ⟨h2.1.trans h1.1, h2.2.trans h1.2⟩

theorem evolves_refl {s : PState} : Evolves s s := ⟨sameShape_refl, [], by simp⟩

theorem evolves_trans {a b c : PState} (h1 : Evolves a b) (h2 : Evolves b c) :
    Evolves a c := by
  obtain ⟨hs1, t1, hc1⟩ := h1
  obtain ⟨hs2, t2, hc2⟩ := h2
  exact ⟨sameShape_trans hs1 hs2, t1 ++ t2, by rw [hc2, hc1, List.append_assoc]⟩

theorem mpres_ok {α : Type} (a : α) : MPres (M.ok a) := fun _ => evolves_refl

theorem mpres_err {α : Type} (m : String) : MPres (M.err m : M α) := fun _ => evolves_refl

theorem mpres_fatal {α : Type} (m : String) : MPres (M.fatal m : M α) := fun _ => evolves_refl

theorem mpres_liftE {α : Type} (e : Except String α) : MPres (M.liftE e) := by
  cases e with
  | ok a => exact mpres_ok a
  | error m => exact mpres_err m

theorem mpres_oracleExpr (c : Collab) (e : Expr) : MPres (oracleExpr c e) :=
  mpres_liftE (c.exprParse e)

theorem mpres_bind {α β : Type} {x : M α} {f : α → M β}
    (hx : MPres x) (hf : ∀ a, MPres (f a)) : MPres (M.bind x f) := by
  intro s
  unfold M.bind
  cases h : x s with
  | ok a s' =>
      have h1 : Evolves s s' := by have := hx s; rw [h] at this; exact this
      exact evolves_trans h1 (hf a s')
  | err m s' =>
      have := hx s; rw [h] at this; exact this
  | fatal m s' =>
      have := hx s; rw [h] at this; exact this

theorem mpres_oracleOr {α : Type} (c : Collab) (e : Expr) {onErr : M α} {k : Attr → M α}
    (h1 : MPres onErr) (h2 : ∀ a, MPres (k a)) : MPres (oracleOr c e onErr k) := by
  intro s
  unfold oracleOr
  cases c.exprParse e with
  | error m => exact h1 s
  | ok a => exact h2 a s

theorem mpres_discardErr {x : M Unit} (hx : MPres x) : MPres (M.discardErr x) := by
  intro s
  unfold M.discardErr
  cases h : x s with
  | ok a s' => have := hx s; rw [h] at this; exact this
  | err m s' => have := hx s; rw [h] at this; exact this
  | fatal m s' => have := hx s; rw [h] at this; exact this

theorem mpres_seqOrStop {x : M Unit} {k : M Unit}
    (hx : MPres x) (hk : MPres k) : MPres (M.seqOrStop x k) := by
  intro s
  unfold M.seqOrStop
  cases h : x s with
  | ok a s' =>
      have h1 : Evolves s s' := by have := hx s; rw [h] at this; exact this
      exact evolves_trans h1 (hk s')
  | err m s' => have := hx s; rw [h] at this; exact this
  | fatal m s' => have := hx s; rw [h] at this; exact this

theorem mpres_emitC (ct : Contract) : MPres (emitC ct) := by
  intro s
  exact ⟨sameShape_refl, [ct], rfl⟩

theorem mpres_newVirtualVar : MPres newVirtualVar := by
  intro s
  exact ⟨sameShape_refl, [], by simp [newVirtualVar, StepResult.state]⟩

theorem mpres_setLastConstType (d : Option DataType) : MPres (setLastConstType d) := by
  intro s
  exact ⟨sameShape_refl, [], by simp [setLastConstType, StepResult.state]⟩

theorem mpres_getLastConstType : MPres getLastConstType := fun _ => evolves_refl

theorem mpres_getCurrentLevel : MPres getCurrentLevel := fun _ => evolves_refl

theorem mpres_addAllocation (pkg name pos : String) : MPres (addAllocation pkg name pos) := by
  intro s
  exact ⟨sameShape_refl, [], by simp [addAllocation, StepResult.state]⟩

theorem mpres_lookupVarM (name : String) : MPres (lookupVarM name) := fun _ => evolves_refl

theorem mpres_lookupAnyM (name : String) : MPres (lookupAnyM name) := fun _ => evolves_refl

theorem addVariable_shape {st st' : SStack} {sym : SymbolDef}
    (h : st.addVariable sym = some st') : SameShape st st' := by
  obtain ⟨tables⟩ := st
  cases tables with
  | nil => simp [SStack.addVariable] at h
  | cons t rest =>
      simp only [SStack.addVariable] at h
      cases hadd : t.addVariable sym with
      | none => rw [hadd] at h; simp at h
      | some t' =>
          rw [hadd] at h
          simp only [Option.some_inj] at h
          subst h
          exact ⟨by simp, by simp⟩

theorem addDataType_shape {st st' : SStack} {sym : SymbolDef}
    (h : st.addDataType sym = some st') : SameShape st st' := by
  obtain ⟨tables⟩ := st
  cases tables with
  | nil => simp [SStack.addDataType] at h
  | cons t rest =>
      simp only [SStack.addDataType] at h
      cases hadd : t.addDataType sym with
      | none => rw [hadd] at h; simp at h
      | some t' =>
          rw [hadd] at h
          simp only [Option.some_inj] at h
          subst h
          exact ⟨by simp, by simp⟩

theorem mpres_addVarIgnored (sym : SymbolDef) : MPres (addVarIgnored sym) := by
  intro s
  unfold addVarIgnored
  cases h : s.stack.addVariable sym with
  | some st => exact ⟨addVariable_shape h, [], by simp [StepResult.state]⟩
  | none => exact evolves_refl

theorem mpres_addVarChecked (sym : SymbolDef) : MPres (addVarChecked sym) := by
  intro s
  unfold addVarChecked
  cases h : s.stack.addVariable sym with
  | some st => exact ⟨addVariable_shape h, [], by simp [StepResult.state]⟩
  | none => exact evolves_refl

theorem mpres_addDataTypeChecked (sym : SymbolDef) : MPres (addDataTypeChecked sym) := by
  intro s
  unfold addDataTypeChecked
  cases h : s.stack.addDataType sym with
  | some st => exact ⟨addDataType_shape h, [], by simp [StepResult.state]⟩
  | none => exact evolves_refl

/-- A push/pop bracket around a shape-preserving body restores the stack
exactly; the other state components evolve through the body. -/
theorem scoped_state {α : Type} {x : M α} (hx : MPres x) (s : PState) :
    ((M.scoped x) s).state.stack = s.stack ∧
      ((M.scoped x) s).state = { (x { s with stack := s.stack.push }).state with
                                  stack := (x { s with stack := s.stack.push }).state.stack.pop } := by
  have hx1 := hx { s with stack := s.stack.push }
  obtain ⟨⟨hlen, htail⟩, _t, _hc⟩ := hx1
  have hpop : (x { s with stack := s.stack.push }).state.stack.pop = s.stack := by
    unfold SStack.pop
    rw [htail]
    simp [SStack.push]
  constructor
  · unfold M.scoped
    cases h : x { s with stack := s.stack.push } with
    | ok a s' =>
        simp only [StepResult.state]
        have : s'.stack.pop = s.stack := by rw [h] at hpop; exact hpop
        simp [this]
    | err m s' =>
        simp only [StepResult.state]
        have : s'.stack.pop = s.stack := by rw [h] at hpop; exact hpop
        simp [this]
    | fatal m s' =>
        simp only [StepResult.state]
        have : s'.stack.pop = s.stack := by rw [h] at hpop; exact hpop
        simp [this]
  · unfold M.scoped
    cases h : x { s with stack := s.stack.push } with
    | ok a s' => simp only [StepResult.state]
    | err m s' => simp only [StepResult.state]
    | fatal m s' => simp only [StepResult.state]

theorem mpres_scoped {α : Type} {x : M α} (hx : MPres x) : MPres (M.scoped x) := by
  intro s
  obtain ⟨hstack, heq⟩ := scoped_state hx s
  have hx1 := hx { s with stack := s.stack.push }
  obtain ⟨_, t, hc⟩ := hx1
  refine ⟨?_, t, ?_⟩
  · rw [hstack]; exact sameShape_refl
  · rw [heq]
    simpa using hc


theorem mpres_ite {α : Type} {cond : Prop} [Decidable cond] {x y : M α}
    (hx : MPres x) (hy : MPres y) : MPres (if cond then x else y) := by
  by_cases h : cond
  · simpa [h] using hx
  · simpa [h] using hy

theorem mpres_valueSpecTuple (c : Collab) (td : Option DataType)
    (l : List ((String × Nat) × (DataType × TypeVar))) : MPres (valueSpecTuple c td l) := by
  induction l with
  | nil => exact mpres_ok []
  | cons hd tl ih =>
      obtain ⟨⟨name, pos⟩, dt, tv⟩ := hd
      simp only [valueSpecTuple]
      split
      · exact ih
      · refine mpres_bind mpres_getCurrentLevel fun lvl => ?_
        cases td with
        | none =>
            exact mpres_bind (mpres_emitC _) fun _ =>
              mpres_bind ih fun syms => mpres_ok _
        | some t =>
            exact mpres_bind (mpres_emitC _) fun _ =>
              mpres_bind ih fun syms => mpres_ok _

theorem mpres_valueSpecElems (c : Collab) (td : Option DataType)
    (l : List ((String × Nat) × Expr)) : MPres (valueSpecElems c td l) := by
  induction l with
  | nil => exact mpres_ok []
  | cons hd tl ih =>
      obtain ⟨⟨name, pos⟩, v⟩ := hd
      simp only [valueSpecElems]
      refine mpres_bind (mpres_oracleExpr c v) fun attr => ?_
      split
      · exact mpres_err _
      · split
        · exact ih
        · cases td with
          | some t =>
              refine mpres_bind (mpres_emitC _) fun _ => ?_
              refine mpres_bind ?_ fun _ => mpres_bind ih fun syms => mpres_ok _
              cases h : (attr.get 0).1 <;>
                first
                  | exact mpres_ite (mpres_setLastConstType _) (mpres_ok ())
                  | exact mpres_ok ()
          | none =>
              refine mpres_bind ?_ fun _ =>
                mpres_bind (mpres_emitC _) fun _ => mpres_bind ih fun syms => mpres_ok _
              cases h : (attr.get 0).1 <;> first
                | exact mpres_ok ()
                | exact mpres_setLastConstType _

theorem mpres_valueSpecTrailing (c : Collab) (td : Option DataType)
    (l : List (String × Nat)) : MPres (valueSpecTrailing c td l) := by
  induction l generalizing td with
  | nil => exact mpres_ok []
  | cons hd tl ih =>
      obtain ⟨name, pos⟩ := hd
      simp only [valueSpecTrailing]
      refine mpres_bind ?_ fun t => ?_
      · cases td with
        | some t => exact mpres_ok t
        | none =>
            refine mpres_bind mpres_getLastConstType fun lc => ?_
            cases lc with
            | none => exact mpres_err _
            | some t => exact mpres_ok t
      · split
        · exact ih _
        · exact mpres_bind (ih _) fun syms => mpres_ok _

theorem mpres_parseValueSpec (c : Collab) (vs : ValueSpec) : MPres (parseValueSpec c vs) := by
  simp only [parseValueSpec]
  refine mpres_bind ?_ fun typeDef => ?_
  · cases vs.tyOpt with
    | some te => exact mpres_bind (mpres_liftE _) fun td => mpres_ok _
    | none => exact mpres_ok _
  · split
    · refine mpres_bind (mpres_oracleExpr _ _) fun attr => ?_
      split
      · split
        · exact mpres_err _
        · exact mpres_bind (mpres_valueSpecElems _ _ _) fun es =>
            mpres_bind (mpres_valueSpecTrailing _ _ _) fun ts => mpres_ok _
      · split
        · exact mpres_err _
        · exact mpres_valueSpecTuple _ _ _
    · split
      · exact mpres_err _
      · exact mpres_bind (mpres_valueSpecElems _ _ _) fun es =>
          mpres_bind (mpres_valueSpecTrailing _ _ _) fun ts => mpres_ok _

theorem mpres_addVarsOrAbort (l : List SymbolDef) : MPres (addVarsOrAbort l) := by
  induction l with
  | nil => exact mpres_ok true
  | cons d rest ih =>
      intro s
      simp only [addVarsOrAbort]
      cases h : s.stack.addVariable d with
      | some st =>
          have h1 : Evolves s { s with stack := st } :=
            ⟨addVariable_shape h, [], by simp⟩
          exact evolves_trans h1 (ih { s with stack := st })
      | none => exact evolves_refl

theorem mpres_parseDeclSpecs (c : Collab) (specs : List Spec) : MPres (parseDeclSpecs c specs) := by
  induction specs with
  | nil => exact mpres_ok ()
  | cons sp rest ih =>
      cases sp with
      | valueSpec vs =>
          simp only [parseDeclSpecs]
          refine mpres_bind (mpres_parseValueSpec c vs) fun defs => ?_
          refine mpres_bind (mpres_addVarsOrAbort defs) fun cont => ?_
          split
          · exact ih
          · exact mpres_ok ()
      | typeSpec name ty =>
          simp only [parseDeclSpecs]
          exact mpres_bind (mpres_addDataTypeChecked _) fun _ =>
            mpres_bind (mpres_liftE _) fun td =>
            mpres_bind (mpres_addDataTypeChecked _) fun _ => ih

theorem mpres_parseDeclStmt (c : Collab) (specs : List Spec) : MPres (parseDeclStmt c specs) :=
  mpres_parseDeclSpecs c specs

theorem mpres_rhsIndexer (c : Collab) (mode : RhsMode) (i : Nat) :
    MPres (rhsIndexer c mode i) := by
  cases mode with
  | general rhs =>
      simp only [rhsIndexer]
      refine mpres_bind (mpres_oracleExpr _ _) fun attr => ?_
      split
      · exact mpres_err _
      · exact mpres_ok _
  | callMode attr isCgo =>
      simp only [rhsIndexer]
      split
      · exact mpres_ok _
      · split
        · exact mpres_ok _
        · exact mpres_fatal _
  | indexMode rhs0 =>
      simp only [rhsIndexer]
      split
      · refine mpres_bind (mpres_oracleExpr _ _) fun attr => ?_
        split
        · exact mpres_err _
        · exact mpres_ok _
      · split
        · exact mpres_ok _
        · exact mpres_err _
  | assertMode xTV td =>
      simp only [rhsIndexer]
      split
      · exact mpres_bind (mpres_emitC _) fun _ => mpres_ok _
      · split
        · exact mpres_ok _
        · exact mpres_err _

theorem mpres_chooseRhsMode (c : Collab) (lhsLen : Nat) (rhs : List Expr) :
    MPres (chooseRhsMode c lhsLen rhs) := by
  simp only [chooseRhsMode]
  split
  · exact mpres_ok _
  · split
    · exact mpres_err _
    · split
      · refine mpres_bind (mpres_oracleExpr _ _) fun attr => ?_
        split
        · exact mpres_ok _
        · split
          · split
            · exact mpres_ok _
            · exact mpres_err _
          · exact mpres_err _
      · split
        · exact mpres_err _
        · exact mpres_ok _
      · split
        · exact mpres_err _
        · refine mpres_bind (mpres_oracleExpr _ _) fun xAttr => ?_
          split
          · exact mpres_err _
          · split
            · exact mpres_err _
            · exact mpres_bind (mpres_liftE _) fun td => mpres_ok _
      · exact mpres_fatal _

theorem mpres_assignLhsOne (c : Collab) (tok : Tok) (e : Expr) (rhsDt : DataType)
    (rhsTv : TypeVar) : MPres (assignLhsOne c tok e rhsDt rhsTv) := by
  simp only [assignLhsOne]
  split
  · split
    · exact mpres_ok _
    · split
      · exact mpres_bind (mpres_addVarIgnored _) fun _ =>
          mpres_bind (mpres_emitC _) fun _ => mpres_ok _
      · refine mpres_bind (mpres_lookupVarM _) fun r => ?_
        cases r with
        | none => exact mpres_err _
        | some sDef => exact mpres_bind (mpres_emitC _) fun _ => mpres_ok _
  · exact mpres_oracleOr _ _ (mpres_ok _) fun attr =>
      mpres_bind (mpres_emitC _) fun _ => mpres_ok _
  · exact mpres_oracleOr _ _ (mpres_ok _) fun attr =>
      mpres_bind (mpres_emitC _) fun _ => mpres_ok _
  · exact mpres_oracleOr _ _ (mpres_ok _) fun attr =>
      mpres_bind (mpres_emitC _) fun _ => mpres_ok _
  · exact mpres_err _

theorem mpres_assignLoop (c : Collab) (tok : Tok) (mode : RhsMode) (l : List Expr) (i : Nat) :
    MPres (assignLoop c tok mode l i) := by
  induction l generalizing i with
  | nil => exact mpres_ok ()
  | cons e rest ih =>
      simp only [assignLoop]
      refine mpres_bind (mpres_rhsIndexer c mode i) fun p => ?_
      refine mpres_bind (mpres_assignLhsOne c tok e p.1 p.2) fun ctl => ?_
      cases ctl with
      | next => exact ih _
      | stop => exact mpres_ok ()

theorem mpres_parseAssignStmt (c : Collab) (lhs : List Expr) (tok : Tok) (rhs : List Expr) :
    MPres (parseAssignStmt c lhs tok rhs) :=
  mpres_bind (mpres_chooseRhsMode c lhs.length rhs) fun mode =>
    mpres_assignLoop c tok mode lhs 0

theorem mpres_parseSendStmt (c : Collab) (chE vE : Expr) : MPres (parseSendStmt c chE vE) :=
  mpres_bind (mpres_oracleExpr c chE) fun chanAttr =>
    mpres_bind (mpres_oracleExpr c vE) fun valueAttr => mpres_emitC _

theorem mpres_parseIncDecStmt (c : Collab) (x : Expr) : MPres (parseIncDecStmt c x) :=
  mpres_bind (mpres_oracleExpr c x) fun attr => mpres_emitC _

theorem mpres_commRecvLhs (c : Collab) (lhs : List Expr) (tok : Tok) (chTv : TypeVar)
    (chValue : Option DataType) : MPres (commRecvLhs c lhs tok chTv chValue) := by
  simp only [commRecvLhs]
  split
  · exact mpres_err _
  · refine mpres_bind mpres_newVirtualVar fun y => ?_
    refine mpres_bind (mpres_emitC _) fun _ => ?_
    split
    · split
      · exact mpres_bind (mpres_addVarIgnored _) fun _ => mpres_emitC _
      · exact mpres_err _
    · exact mpres_bind (mpres_oracleExpr _ _) fun assignAttr => mpres_emitC _
  · refine mpres_bind mpres_newVirtualVar fun y => ?_
    refine mpres_bind (mpres_emitC _) fun _ => ?_
    split
    · split
      · split
        · exact mpres_bind (mpres_addVarIgnored _) fun _ =>
            mpres_bind (mpres_emitC _) fun _ =>
            mpres_bind (mpres_addVarIgnored _) fun _ => mpres_emitC _
        · exact mpres_err _
      · exact mpres_err _
    · exact mpres_bind (mpres_oracleExpr _ _) fun a1 =>
        mpres_bind (mpres_emitC _) fun _ =>
        mpres_bind (mpres_oracleExpr _ _) fun a2 => mpres_emitC _
  · exact mpres_err _

theorem mpres_parseCommAssign (c : Collab) (lhs : List Expr) (tok : Tok) (rhs : List Expr) :
    MPres (parseCommAssign c lhs tok rhs) := by
  simp only [parseCommAssign]
  split
  · exact mpres_err _
  · split
    · split
      · exact mpres_err _
      · refine mpres_bind (mpres_oracleExpr _ _) fun attr => ?_
        split
        · exact mpres_err _
        · split
          · exact mpres_commRecvLhs _ _ _ _ _
          · exact mpres_err _
    · exact mpres_err _

theorem mpres_parseCommStmt (c : Collab) (cs : CommStmt) : MPres (parseCommStmt c cs) := by
  cases cs with
  | exprComm x => exact mpres_bind (mpres_oracleExpr c x) fun _ => mpres_ok ()
  | sendComm chE vE =>
      exact mpres_bind (mpres_oracleExpr c chE) fun a1 =>
        mpres_bind (mpres_oracleExpr c vE) fun a2 => mpres_emitC _
  | assignComm lhs tok rhs => exact mpres_parseCommAssign c lhs tok rhs
  | otherComm t => exact mpres_err _

theorem mpres_parseReceiver (c : Collab) (receiver : Expr) (skipAllocated : Bool) :
    MPres (parseReceiver c receiver skipAllocated) := by
  simp only [parseReceiver]
  split
  · refine mpres_bind (mpres_lookupAnyM _) fun r => ?_
    cases r with
    | none => exact mpres_err _
    | some d =>
        refine mpres_bind ?_ fun _ => mpres_ok _
        split
        · exact mpres_ok ()
        · exact mpres_addAllocation _ _ _
  · split
    · refine mpres_bind (mpres_lookupAnyM _) fun r => ?_
      cases r with
      | none => exact mpres_err _
      | some d =>
          refine mpres_bind ?_ fun _ => mpres_ok _
          split
          · exact mpres_ok ()
          · exact mpres_addAllocation _ _ _
    · exact mpres_err _
  · exact mpres_err _

theorem mpres_headFieldNames (c : Collab) (dt : DataType) (l : List (String × Nat)) :
    MPres (headFieldNames c dt l) := by
  induction l with
  | nil => exact mpres_ok []
  | cons hd tl ih =>
      obtain ⟨n, p⟩ := hd
      simp only [headFieldNames]
      exact mpres_bind (mpres_emitC _) fun _ => mpres_bind ih fun syms => mpres_ok _

theorem mpres_headFields (c : Collab) (l : List Field) : MPres (headFields c l) := by
  induction l with
  | nil => exact mpres_ok []
  | cons f rest ih =>
      exact mpres_bind (mpres_liftE _) fun dt =>
        mpres_bind (mpres_headFieldNames c dt f.names) fun syms =>
        mpres_bind ih fun more => mpres_ok _

theorem mpres_addAllIgnored (l : List SymbolDef) : MPres (addAllIgnored l) := by
  induction l with
  | nil => exact mpres_ok ()
  | cons d rest ih => exact mpres_bind (mpres_addVarIgnored d) fun _ => ih

theorem mpres_parseFuncHeadVariables (c : Collab) (fd : FuncDecl) :
    MPres (parseFuncHeadVariables c fd) := by
  simp only [parseFuncHeadVariables]
  refine mpres_bind ?_ fun _ => ?_
  · cases fd.recv with
    | none => exact mpres_ok ()
    | some recvList =>
        simp only
        split
        · exact mpres_err _
        · split
          · exact mpres_err _
          · refine mpres_bind (mpres_parseReceiver _ _ _) fun recvDef => ?_
            split
            · exact mpres_ok ()
            · exact mpres_bind (mpres_emitC _) fun _ => mpres_addVarIgnored _
  · refine mpres_bind ?_ fun pDefs => mpres_bind ?_ fun rDefs => mpres_addAllIgnored _
    · cases fd.params with
      | none => exact mpres_ok []
      | some fl => exact mpres_headFields c fl
    · cases fd.results with
      | none => exact mpres_ok []
      | some fl => exact mpres_headFields c fl

theorem mpres_tsCaseTypes (c : Collab) (tv : TypeVar) (l : List TypeExpr) :
    MPres (tsCaseTypes c tv l) := by
  induction l with
  | nil => exact mpres_ok ()
  | cons te rest ih =>
      exact mpres_bind (mpres_liftE _) fun rhsType =>
        mpres_bind (mpres_emitC _) fun _ => ih

theorem mpres_tsCaseBind (c : Collab) (rhsId : Option String) (dt : DataType) (pos : Nat) :
    MPres (tsCaseBind c rhsId dt pos) := by
  cases rhsId with
  | none => exact mpres_ok ()
  | some n => exact mpres_bind (mpres_addVarIgnored _) fun _ => mpres_emitC _

theorem mpres_tsCaseCore (c : Collab) (tv : TypeVar) (rhsId : Option String)
    (types : List TypeExpr) (pos : Nat) : MPres (tsCaseCore c tv rhsId types pos) := by
  simp only [tsCaseCore]
  split
  · exact mpres_bind (mpres_tsCaseTypes _ _ _) fun _ => mpres_tsCaseBind _ _ _ _
  · exact mpres_bind (mpres_liftE _) fun rhsType =>
      mpres_bind (mpres_emitC _) fun _ => mpres_tsCaseBind _ _ _ _

theorem mpres_rangeKeyPart (c : Collab) (tok : Tok) (xTv : TypeVar) (key : Option DataType)
    (keyE : Option Expr) : MPres (rangeKeyPart c tok xTv key keyE) := by
  cases keyE with
  | none => exact mpres_ok true
  | some ke =>
      simp only [rangeKeyPart]
      split
      · split
        · split
          · exact mpres_ok true
          · exact mpres_bind (mpres_addVarChecked _) fun _ =>
              mpres_bind (mpres_emitC _) fun _ => mpres_ok true
        · exact mpres_err _
      · split
        · split
          · exact mpres_ok true
          · exact mpres_oracleOr _ _ (mpres_ok false) fun keyAttr =>
              mpres_bind (mpres_emitC _) fun _ => mpres_ok true
        · exact mpres_err _

theorem mpres_rangeValuePart (c : Collab) (tok : Tok) (xTv : TypeVar) (value : Option DataType)
    (valE : Option Expr) : MPres (rangeValuePart c tok xTv value valE) := by
  cases valE with
  | none => exact mpres_ok true
  | some ve =>
      simp only [rangeValuePart]
      split
      · split
        · split
          · exact mpres_ok true
          · split
            · exact mpres_ok true
            · exact mpres_bind (mpres_addVarChecked _) fun _ =>
                mpres_bind (mpres_emitC _) fun _ => mpres_ok true
        · exact mpres_err _
      · split
        · split
          · exact mpres_ok true
          · split
            · exact mpres_ok true
            · exact mpres_oracleOr _ _ (mpres_ok false) fun valueAttr =>
                mpres_bind (mpres_emitC _) fun _ => mpres_ok true
        · exact mpres_err _

theorem mpres_switchTagTv (c : Collab) (tag : Option Expr) : MPres (switchTagTv c tag) := by
  cases tag with
  | none => exact mpres_ok _
  | some te => exact mpres_bind (mpres_oracleExpr c te) fun attr => mpres_ok _

theorem mpres_caseExprsLoop (c : Collab) (tagTv : TypeVar) (l : List Expr) :
    MPres (caseExprsLoop c tagTv l) := by
  induction l with
  | nil => exact mpres_ok true
  | cons e rest ih =>
      exact mpres_oracleOr _ _ (mpres_ok false) fun caseAttr =>
        mpres_bind (mpres_emitC _) fun _ => ih

theorem mpres_returnResults (c : Collab) (l : List Expr) : MPres (returnResults c l) := by
  induction l with
  | nil => exact mpres_ok ()
  | cons e rest ih => exact mpres_bind (mpres_oracleExpr c e) fun _ => ih


theorem mpres_selectBadClause : MPres selectBadClause :=
  mpres_scoped (mpres_err _)

theorem mpres_commPart (c : Collab) (comm : Option CommStmt) : MPres (commPart c comm) := by
  cases comm with
  | some cs => exact mpres_parseCommStmt c cs
  | none => exact mpres_ok ()

theorem mpres_forCondPart (c : Collab) (cond : Option Expr) : MPres (forCondPart c cond) := by
  cases cond with
  | some ce => exact mpres_bind (mpres_oracleExpr c ce) fun _ => mpres_ok ()
  | none => exact mpres_ok ()

mutual

theorem mpres_parseStmt (c : Collab) (st : Stmt) : MPres (parseStmt c st) := by
  cases st with
  | declStmt specs => rw [parseStmt]; exact mpres_parseDeclStmt c specs
  | labeledStmt l inner => rw [parseStmt]; exact mpres_parseStmt c inner
  | exprStmt x =>
      rw [parseStmt]; exact mpres_bind (mpres_oracleExpr c x) fun _ => mpres_ok ()
  | sendStmt chE vE => rw [parseStmt]; exact mpres_parseSendStmt c chE vE
  | incDecStmt x => rw [parseStmt]; exact mpres_parseIncDecStmt c x
  | assignStmt lhs tok rhs => rw [parseStmt]; exact mpres_parseAssignStmt c lhs tok rhs
  | goStmt callE =>
      rw [parseStmt]; exact mpres_bind (mpres_oracleExpr c callE) fun _ => mpres_ok ()
  | returnStmt results => rw [parseStmt]; exact mpres_returnResults c results
  | branchStmt => rw [parseStmt]; exact mpres_ok ()
  | blockStmt body => rw [parseStmt]; exact mpres_parseBlockStmt c body
  | ifStmt ini cond body els => rw [parseStmt]; exact mpres_parseIfStmt c ini cond body els
  | switchStmt ini tag items => rw [parseStmt]; exact mpres_parseSwitchStmt c ini tag items
  | typeSwitchStmt ini guard items =>
      rw [parseStmt]; exact mpres_parseTypeSwitchStmt c ini guard items
  | selectStmt items => rw [parseStmt]; exact mpres_parseSelectStmt c items
  | forStmt ini cond post body => rw [parseStmt]; exact mpres_parseForStmt c ini cond post body
  | rangeStmt keyE valE tok x body =>
      rw [parseStmt]; exact mpres_parseRangeStmt c keyE valE tok x body
  | deferStmt callE =>
      rw [parseStmt]; exact mpres_bind (mpres_oracleExpr c callE) fun _ => mpres_ok ()
  | emptyStmt => rw [parseStmt]; exact mpres_ok ()
termination_by 10 * sizeOf st + 9
decreasing_by all_goals (simp_wf; try omega)

theorem mpres_stmtList (c : Collab) (l : List Stmt) : MPres (stmtList c l) := by
  cases l with
  | nil => rw [stmtList]; exact mpres_ok ()
  | cons s rest =>
      rw [stmtList]
      exact mpres_bind (mpres_parseStmt c s) fun _ => mpres_stmtList c rest
termination_by 10 * sizeOf l
decreasing_by all_goals (simp_wf; try omega)

theorem mpres_parseBlockStmt (c : Collab) (body : List Stmt) : MPres (parseBlockStmt c body) := by
  rw [parseBlockStmt]
  exact mpres_scoped (mpres_stmtList c body)
termination_by 10 * sizeOf body + 8
decreasing_by all_goals (simp_wf; try omega)

theorem mpres_parseIfStmt (c : Collab) (ini : Option Stmt) (cond : Expr) (body : List Stmt)
    (els : Option Stmt) : MPres (parseIfStmt c ini cond body els) := by
  cases ini with
  | some i =>
      rw [parseIfStmt]
      exact mpres_scoped (mpres_bind (mpres_parseStmt c i) fun _ => mpres_ifCore c cond body els)
  | none => rw [parseIfStmt]; exact mpres_ifCore c cond body els
termination_by 10 * (1 + sizeOf ini + sizeOf cond + sizeOf body + sizeOf els) + 8
decreasing_by all_goals (simp_wf; try omega)

theorem mpres_ifCore (c : Collab) (cond : Expr) (body : List Stmt) (els : Option Stmt) :
    MPres (ifCore c cond body els) := by
  rw [ifCore]
  exact mpres_bind (mpres_oracleExpr c cond) fun _ =>
    mpres_bind (mpres_scoped (mpres_stmtList c body)) fun _ => mpres_ifElsePart c els
termination_by 10 * (1 + sizeOf cond + sizeOf body + sizeOf els) + 7
decreasing_by all_goals (simp_wf; try omega)

theorem mpres_ifElsePart (c : Collab) (els : Option Stmt) : MPres (ifElsePart c els) := by
  cases els with
  | some e => rw [ifElsePart]; exact mpres_parseStmt c e
  | none => rw [ifElsePart]; exact mpres_ok ()
termination_by 10 * sizeOf els + 6
decreasing_by all_goals (simp_wf; try omega)

theorem mpres_parseSwitchStmt (c : Collab) (ini : Option Stmt) (tag : Option Expr)
    (items : List SwitchItem) : MPres (parseSwitchStmt c ini tag items) := by
  cases ini with
  | some i =>
      rw [parseSwitchStmt]
      exact mpres_scoped (mpres_bind (mpres_parseStmt c i) fun _ => mpres_switchCore c tag items)
  | none => rw [parseSwitchStmt]; exact mpres_switchCore c tag items
termination_by 10 * (1 + sizeOf ini + sizeOf tag + sizeOf items) + 8
decreasing_by all_goals (simp_wf; try omega)

theorem mpres_switchCore (c : Collab) (tag : Option Expr) (items : List SwitchItem) :
    MPres (switchCore c tag items) := by
  rw [switchCore]
  exact mpres_bind (mpres_switchTagTv c tag) fun tagTv => mpres_switchItems c tagTv items
termination_by 10 * (1 + sizeOf tag + sizeOf items) + 7
decreasing_by all_goals (simp_wf; try omega)

theorem mpres_switchItems (c : Collab) (tagTv : TypeVar) (items : List SwitchItem) :
    MPres (switchItems c tagTv items) := by
  cases items with
  | nil => rw [switchItems]; exact mpres_ok ()
  | cons item rest =>
      cases item with
      | nonCase t => rw [switchItems]; exact mpres_err _
      | caseClause exprs body =>
          rw [switchItems]
          refine mpres_bind (mpres_caseExprsLoop c tagTv exprs) fun cont => ?_
          refine mpres_ite ?_ (mpres_ok ())
          exact mpres_bind (mpres_scoped (mpres_stmtList c body)) fun _ =>
            mpres_switchItems c tagTv rest
termination_by 10 * sizeOf items
decreasing_by all_goals (simp_wf; try omega)

theorem mpres_parseTypeSwitchStmt (c : Collab) (ini : Option Stmt) (guard : TSGuard)
    (items : List TSItem) : MPres (parseTypeSwitchStmt c ini guard items) := by
  cases ini with
  | some i =>
      rw [parseTypeSwitchStmt]
      exact mpres_scoped (mpres_bind (mpres_parseStmt c i) fun _ => mpres_tsOuter c guard items)
  | none => rw [parseTypeSwitchStmt]; exact mpres_tsOuter c guard items
termination_by 10 * (1 + sizeOf ini + sizeOf guard + sizeOf items) + 8
decreasing_by all_goals (simp_wf; try omega)

theorem mpres_tsOuter (c : Collab) (guard : TSGuard) (items : List TSItem) :
    MPres (tsOuter c guard items) := by
  rw [tsOuter]
  exact mpres_scoped (mpres_tsGuard c guard items)
termination_by 10 * (1 + sizeOf guard + sizeOf items) + 7
decreasing_by all_goals (simp_wf; try omega)

theorem mpres_tsGuard (c : Collab) (guard : TSGuard) (items : List TSItem) :
    MPres (tsGuard c guard items) := by
  cases guard with
  | assignGuard glhs grhs =>
      rw [tsGuard]; exact mpres_scoped (mpres_tsAssignGuard c glhs grhs items)
  | exprGuard x => rw [tsGuard]; exact mpres_tsExprGuard c x items
  | otherGuard t => rw [tsGuard]; exact mpres_err _
termination_by 10 * (1 + sizeOf guard + sizeOf items) + 6
decreasing_by all_goals (simp_wf; try omega)

theorem mpres_tsAssignGuard (c : Collab) (glhs grhs : List Expr) (items : List TSItem) :
    MPres (tsAssignGuard c glhs grhs items) := by
  rw [tsAssignGuard]
  refine mpres_ite (mpres_err _) (mpres_ite (mpres_err _) ?_)
  cases grhs.getD 0 (Expr.otherExpr "") <;> try exact mpres_err _
  exact mpres_oracleOr _ _ (mpres_ok ()) fun typeAttr => mpres_tsGuardLhs c _ _ items
termination_by 10 * sizeOf items + 5
decreasing_by all_goals (simp_wf; try omega)

theorem mpres_tsGuardLhs (c : Collab) (lhs0 : Expr) (tv : TypeVar) (items : List TSItem) :
    MPres (tsGuardLhs c lhs0 tv items) := by
  cases lhs0 <;> first
    | (rw [tsGuardLhs]; exact mpres_tsItems c _ _ items)
    | (rw [tsGuardLhs] <;> first
        | exact mpres_err _
        | nofun)
termination_by 10 * sizeOf items + 4
decreasing_by all_goals (simp_wf; try omega)

theorem mpres_tsExprGuard (c : Collab) (x : Expr) (items : List TSItem) :
    MPres (tsExprGuard c x items) := by
  cases x <;> first
    | (rw [tsExprGuard]
       exact mpres_oracleOr _ _ (mpres_ok ()) fun typeAttr => mpres_tsItems c _ none items)
    | (rw [tsExprGuard] <;> first
        | exact mpres_err _
        | nofun)
termination_by 10 * sizeOf items + 5
decreasing_by all_goals (simp_wf; try omega)

theorem mpres_tsItems (c : Collab) (tv : TypeVar) (rhsId : Option String)
    (items : List TSItem) : MPres (tsItems c tv rhsId items) := by
  cases items with
  | nil => rw [tsItems]; exact mpres_ok ()
  | cons item rest =>
      cases item with
      | nonCase t => rw [tsItems]; exact mpres_err _
      | caseClause types pos body =>
          rw [tsItems]
          refine mpres_seqOrStop ?_ (mpres_tsItems c tv rhsId rest)
          exact mpres_scoped (mpres_bind (mpres_tsCaseCore c tv rhsId types pos) fun _ =>
            mpres_scoped (mpres_stmtList c body))
termination_by 10 * sizeOf items
decreasing_by all_goals (simp_wf; try omega)

theorem mpres_parseSelectStmt (c : Collab) (items : List CommItem) :
    MPres (parseSelectStmt c items) := by
  cases items with
  | nil => rw [parseSelectStmt]; exact mpres_ok ()
  | cons item rest =>
      cases item with
      | nonComm t => rw [parseSelectStmt]; exact mpres_selectBadClause
      | commClause comm body =>
          rw [parseSelectStmt]
          refine mpres_bind (mpres_scoped ?_) fun _ => mpres_parseSelectStmt c rest
          exact mpres_bind (mpres_commPart c comm) fun _ => mpres_scoped (mpres_stmtList c body)
termination_by 10 * sizeOf items
decreasing_by all_goals (simp_wf; try omega)

theorem mpres_parseForStmt (c : Collab) (ini : Option Stmt) (cond : Option Expr)
    (post : Option Stmt) (body : List Stmt) : MPres (parseForStmt c ini cond post body) := by
  rw [parseForStmt]
  exact mpres_scoped (
    mpres_bind (mpres_forOpt c ini) fun _ =>
    mpres_bind (mpres_forCondPart c cond) fun _ =>
    mpres_bind (mpres_forOpt c post) fun _ =>
    mpres_scoped (mpres_stmtList c body))
termination_by 10 * (1 + sizeOf ini + sizeOf cond + sizeOf post + sizeOf body) + 8
decreasing_by all_goals (simp_wf; try omega)

theorem mpres_forOpt (c : Collab) (o : Option Stmt) : MPres (forOpt c o) := by
  cases o with
  | some i => rw [forOpt]; exact mpres_discardErr (mpres_parseStmt c i)
  | none => rw [forOpt]; exact mpres_ok ()
termination_by 10 * sizeOf o + 7
decreasing_by all_goals (simp_wf; try omega)

theorem mpres_parseRangeStmt (c : Collab) (keyE valE : Option Expr) (tok : Tok) (x : Expr)
    (body : List Stmt) : MPres (parseRangeStmt c keyE valE tok x body) := by
  rw [parseRangeStmt]
  exact mpres_bind (mpres_oracleExpr c x) fun xAttr =>
    mpres_scoped (
      mpres_bind (mpres_emitC _) fun _ =>
      mpres_bind (mpres_liftE _) fun rangeExpr =>
      mpres_rangeCore c tok _ rangeExpr keyE valE body)
termination_by 10 * sizeOf body + 8
decreasing_by all_goals (simp_wf; try omega)

theorem mpres_rangeCore (c : Collab) (tok : Tok) (xTv : TypeVar) (rangeExpr : DataType)
    (keyE valE : Option Expr) (body : List Stmt) :
    MPres (rangeCore c tok xTv rangeExpr keyE valE body) := by
  rw [rangeCore]
  cases rangeKeyValue rangeExpr with
  | none => exact mpres_fatal _
  | some kv =>
      obtain ⟨key, value⟩ := kv
      refine mpres_bind (mpres_rangeKeyPart c tok xTv key keyE) fun cont => ?_
      refine mpres_ite ?_ (mpres_ok ())
      refine mpres_bind (mpres_rangeValuePart c tok xTv value valE) fun cont2 => ?_
      exact mpres_ite (mpres_scoped (mpres_stmtList c body)) (mpres_ok ())
termination_by 10 * sizeOf body + 7
decreasing_by all_goals (simp_wf; try omega)

end


/-- A computation that can never panic (no fatal outcome); the header
binder is such a computation, so the early error return of ParseFuncBody
(which pops without a registered defer) is its only abnormal exit. -/
def NoFatal {α : Type} (x : M α) : Prop := ∀ s m s', x s ≠ .fatal m s'

theorem nofatal_ok {α : Type} (a : α) : NoFatal (M.ok a) := by
  intro s m s' h
  exact absurd h (by simp [M.ok])

theorem nofatal_err {α : Type} (msg : String) : NoFatal (M.err msg : M α) := by
  intro s m s' h
  exact absurd h (by simp [M.err])

theorem nofatal_liftE {α : Type} (e : Except String α) : NoFatal (M.liftE e) := by
  cases e with
  | ok a => exact nofatal_ok a
  | error m => exact nofatal_err m

theorem nofatal_bind {α β : Type} {x : M α} {f : α → M β}
    (hx : NoFatal x) (hf : ∀ a, NoFatal (f a)) : NoFatal (M.bind x f) := by
  intro s m s' h
  unfold M.bind at h
  cases hr : x s with
  | ok a s1 => rw [hr] at h; exact hf a s1 m s' h
  | err m1 s1 => rw [hr] at h; exact absurd h (by simp)
  | fatal m1 s1 => exact hx s m1 s1 hr

theorem nofatal_emitC (ct : Contract) : NoFatal (emitC ct) := by
  intro s m s' h
  exact absurd h (by simp [emitC])

theorem nofatal_addVarIgnored (sym : SymbolDef) : NoFatal (addVarIgnored sym) := by
  intro s m s' h
  unfold addVarIgnored at h
  cases hr : s.stack.addVariable sym with
  | some st => rw [hr] at h; exact absurd h (by simp)
  | none => rw [hr] at h; exact absurd h (by simp)

theorem nofatal_lookupAnyM (name : String) : NoFatal (lookupAnyM name) := by
  intro s m s' h
  exact absurd h (by simp [lookupAnyM])

theorem nofatal_addAllocation (pkg name pos : String) :
    NoFatal (addAllocation pkg name pos) := by
  intro s m s' h
  exact absurd h (by simp [addAllocation])

theorem nofatal_parseReceiver (c : Collab) (receiver : Expr) (skipAllocated : Bool) :
    NoFatal (parseReceiver c receiver skipAllocated) := by
  simp only [parseReceiver]
  split
  · refine nofatal_bind (nofatal_lookupAnyM _) fun r => ?_
    cases r with
    | none => exact nofatal_err _
    | some d =>
        refine nofatal_bind ?_ fun _ => nofatal_ok _
        split
        · exact nofatal_ok ()
        · exact nofatal_addAllocation _ _ _
  · split
    · refine nofatal_bind (nofatal_lookupAnyM _) fun r => ?_
      cases r with
      | none => exact nofatal_err _
      | some d =>
          refine nofatal_bind ?_ fun _ => nofatal_ok _
          split
          · exact nofatal_ok ()
          · exact nofatal_addAllocation _ _ _
    · exact nofatal_err _
  · exact nofatal_err _

theorem nofatal_headFieldNames (c : Collab) (dt : DataType) (l : List (String × Nat)) :
    NoFatal (headFieldNames c dt l) := by
  induction l with
  | nil => exact nofatal_ok []
  | cons hd tl ih =>
      obtain ⟨n, p⟩ := hd
      simp only [headFieldNames]
      exact nofatal_bind (nofatal_emitC _) fun _ => nofatal_bind ih fun syms => nofatal_ok _

theorem nofatal_headFields (c : Collab) (l : List Field) : NoFatal (headFields c l) := by
  induction l with
  | nil => exact nofatal_ok []
  | cons f rest ih =>
      exact nofatal_bind (nofatal_liftE _) fun dt =>
        nofatal_bind (nofatal_headFieldNames c dt f.names) fun syms =>
        nofatal_bind ih fun more => nofatal_ok _

theorem nofatal_addAllIgnored (l : List SymbolDef) : NoFatal (addAllIgnored l) := by
  induction l with
  | nil => exact nofatal_ok ()
  | cons d rest ih => exact nofatal_bind (nofatal_addVarIgnored d) fun _ => ih

theorem nofatal_parseFuncHeadVariables (c : Collab) (fd : FuncDecl) :
    NoFatal (parseFuncHeadVariables c fd) := by
  simp only [parseFuncHeadVariables]
  refine nofatal_bind ?_ fun _ => ?_
  · cases fd.recv with
    | none => exact nofatal_ok ()
    | some recvList =>
        simp only
        split
        · exact nofatal_err _
        · split
          · exact nofatal_err _
          · refine nofatal_bind (nofatal_parseReceiver _ _ _) fun recvDef => ?_
            split
            · exact nofatal_ok ()
            · exact nofatal_bind (nofatal_emitC _) fun _ => nofatal_addVarIgnored _
  · refine nofatal_bind ?_ fun pDefs => nofatal_bind ?_ fun rDefs => nofatal_addAllIgnored _
    · cases fd.params with
      | none => exact nofatal_ok []
      | some fl => exact nofatal_headFields c fl
    · cases fd.results with
      | none => exact nofatal_ok []
      | some fl => exact nofatal_headFields c fl

/-- The header binder only touches the topmost (freshly pushed) scope. -/
theorem mpres_parseFuncHeadVariables_state (c : Collab) (fd : FuncDecl) (s : PState) :
    Evolves s ((parseFuncHeadVariables c fd) s).state :=
  mpres_parseFuncHeadVariables c fd s

/-- The stack after ParseFuncBody equals the stack before it on every
outcome: the early header-error pop and the two deferred pops both
restore the caller's stack exactly, because every parse step preserves
the depth and the tables below the top. -/
theorem popAfter_state (x : M Unit) (s : PState) :
    ((popAfter x) s).state.stack = ((x s).state.stack).pop := by
  unfold popAfter
  cases h : x s with
  | ok a s' => simp only [StepResult.state]
  | err m s' => simp only [StepResult.state]
  | fatal m s' => simp only [StepResult.state]

theorem mpres_funcBody (c : Collab) (b : Option (List Stmt)) : MPres (funcBody c b) := by
  cases b with
  | none => exact mpres_ok ()
  | some stmts => exact mpres_stmtList c stmts

theorem ParseFuncBody_stack (c : Collab) (fd : FuncDecl) (s : PState) :
    ((ParseFuncBody c fd) s).state.stack = s.stack := by
  unfold ParseFuncBody
  cases hh : parseFuncHeadVariables c fd { s with stack := s.stack.push } with
  | err m s2 =>
      have hev := mpres_parseFuncHeadVariables c fd { s with stack := s.stack.push }
      rw [hh] at hev
      simp only [StepResult.state] at hev
      obtain ⟨⟨hlen, htail⟩, _⟩ := hev
      simp only [StepResult.state]
      unfold SStack.pop
      rw [htail]
      simp [SStack.push]
  | fatal m s2 =>
      exact absurd hh (nofatal_parseFuncHeadVariables c fd _ m s2)
  | ok a s2 =>
      have hev := mpres_parseFuncHeadVariables c fd { s with stack := s.stack.push }
      rw [hh] at hev
      simp only [StepResult.state] at hev
      obtain ⟨⟨hlen2, htail2⟩, _⟩ := hev
      have htail2' : s2.stack.tables.tail = s.stack.tables := by
        rw [htail2]; simp [SStack.push]
      rw [popAfter_state]
      rw [(scoped_state (mpres_funcBody c fd.body) s2).1]
      unfold SStack.pop
      rw [htail2']


/-- C7: after ParseFuncBody returns, whether with success or with an
error (a header-binding error, an error from any body statement, or a
panic unwinding through the deferred pops), the symbol-table stack size
equals its size before the call, the level-0 (bottom) table is
unchanged, and in fact the whole stack is restored exactly. -/
theorem C7_parseFuncBody_frame (c : Collab) (fd : FuncDecl) (s : PState) :
    ((ParseFuncBody c fd) s).state.stack.size = s.stack.size ∧
    ((ParseFuncBody c fd) s).state.stack.tables.getLast? = s.stack.tables.getLast? ∧
    ((ParseFuncBody c fd) s).state.stack = s.stack := by
  rw [ParseFuncBody_stack]
  exact ⟨rfl, rfl, rfl⟩

/-- C9: for a FuncDecl with a nil body, once the header variables have
been bound successfully, ParseFuncBody returns success; the header and
body scopes are pushed and popped (the final stack is the caller's
stack), the contracts emitted while binding the header are kept, and no
statement is parsed (the result state is the header state with the two
scopes removed and nothing else changed). -/
theorem C9_nil_body_ok (c : Collab) (fd : FuncDecl) (s s2 : PState) (a : Unit)
    (hb : fd.body = none)
    (hh : parseFuncHeadVariables c fd { s with stack := s.stack.push } = .ok a s2) :
    ParseFuncBody c fd s = .ok () { s2 with stack := ⟨s2.stack.tables.tail⟩ } ∧
    (⟨s2.stack.tables.tail⟩ : SStack) = s.stack ∧
    (∃ t, s2.contracts = s.contracts ++ t) := by
  have hev := mpres_parseFuncHeadVariables c fd { s with stack := s.stack.push }
  rw [hh] at hev
  simp only [StepResult.state] at hev
  obtain ⟨⟨hlen2, htail2⟩, t, hct⟩ := hev
  refine ⟨?_, ?_, ⟨t, by simpa using hct⟩⟩
  · unfold ParseFuncBody
    rw [hh, hb]
    simp only [popAfter, M.scoped, funcBody, M.ok, SStack.push, SStack.pop, List.tail_cons]
  · rw [htail2]
    simp [SStack.push]


/-- A concrete collaborator for closed runs: the expression parser knows
a handful of identifiers, fails on star expressions and on the
identifier bad; the type parser knows int. -/
def wCollab : Collab :=
  { packageName := "pkg", fileName := "f",
    exprParse := fun e =>
      match e with
      | .star _ => .error "boom"
      | .ident "v" _ => .ok ⟨[(.builtin "int" false, .virtualVar 7)]⟩
      | .ident "tag" _ => .ok ⟨[(.builtin "int" false, .virtualVar 8)]⟩
      | .ident "bad" _ => .error "boom"
      | .ident "one" _ => .ok ⟨[(.builtin "int" false, .virtualVar 9)]⟩
      | .ident "iota" _ => .ok ⟨[(.builtin "iota" true, .virtualVar 6)]⟩
      | _ => .error "unhandled",
    typeParse := fun te =>
      match te with
      | .mk "int" => .ok (.builtin "int" false)
      | _ => .error "unknown type",
    findFirstNonid := fun d => .ok d }

/-- An initial state: one (file-level) table, no contracts. -/
def cSt : PState := ⟨⟨[Table.empty]⟩, [], 0, none, []⟩

/-- A state whose only table already holds a variable x. -/
def cDup : PState :=
  ⟨⟨[⟨[⟨"x", "pkg", some (.builtin "int" false), "f:0"⟩], [], []⟩]⟩, [], 0, none, []⟩

/-- The function declaration f9(x int) with a nil body. -/
def fd9 : FuncDecl :=
  ⟨some "f9", none, some [⟨[("x", 5)], TypeExpr.mk "int"⟩], none, none⟩

/-- The state after binding the header of fd9 from cSt. -/
def s9h : PState :=
  ⟨⟨[⟨[⟨"x", "", some (.builtin "int" false), "f:5"⟩], [], []⟩, Table.empty]⟩,
   [.propagatesTo (makeConstant "pkg" (.builtin "int" false)) (TypeVar.varT "" "x" "f:5")
      (some (.builtin "int" false))],
   0, none, []⟩

theorem C9_nil_body_ok_witness :
    fd9.body = none ∧
    parseFuncHeadVariables wCollab fd9 { cSt with stack := cSt.stack.push } = .ok () s9h ∧
    (ParseFuncBody wCollab fd9 cSt = .ok () { s9h with stack := ⟨s9h.stack.tables.tail⟩ } ∧
     (⟨s9h.stack.tables.tail⟩ : SStack) = cSt.stack ∧
     (∃ t, s9h.contracts = cSt.contracts ++ t)) :=
  ⟨rfl, rfl, C9_nil_body_ok wCollab fd9 cSt s9h () rfl rfl⟩


/-- C1: three call paths return success (nil) to the caller of Parse
although an underlying call has failed, contradicting the propagation
claim.  (a) An assignment whose LHS is a star-deref: the expression
parser fails on it, yet Parse returns ok with the state unchanged.
(b) A value switch whose case expression fails to parse: Parse returns
ok.  (c) A DeclStmt whose ValueSpec parses but whose AddVariable call
fails (duplicate in the innermost scope): Parse returns ok, keeping the
already-emitted contract but storing nothing. -/
theorem C1_errors_silently_dropped :
    (wCollab.exprParse (Expr.star (Expr.ident "p" 1)) = .error "boom" ∧
      parseStmt wCollab (.assignStmt [Expr.star (Expr.ident "p" 1)] .assign [Expr.ident "v" 2]) cSt
        = .ok () cSt) ∧
    (wCollab.exprParse (Expr.ident "bad" 4) = .error "boom" ∧
      parseStmt wCollab (.switchStmt none (some (Expr.ident "tag" 3))
          [SwitchItem.caseClause [Expr.ident "bad" 4] []]) cSt
        = .ok () cSt) ∧
    (cDup.stack.addVariable ⟨"x", "pkg", some (.builtin "int" false), "f:6"⟩ = none ∧
      parseStmt wCollab (.declStmt [Spec.valueSpec ⟨[("x", 6)], none, [Expr.ident "one" 7]⟩]) cDup
        = .ok () { cDup with contracts :=
            [.propagatesTo (.virtualVar 9) (.varT "pkg" "x" "f:6")
              (some (.builtin "int" false))] }) := by
  refine ⟨⟨rfl, ?_⟩, ⟨rfl, ?_⟩, ⟨rfl, ?_⟩⟩
  · rw [parseStmt]
    rfl
  · rw [parseStmt]
    rw [parseSwitchStmt]
    rw [switchCore]
    have hsw : switchItems wCollab (TypeVar.virtualVar 8)
        [SwitchItem.caseClause [Expr.ident "bad" 4] []] cSt = .ok () cSt := by
      rw [switchItems]
      rfl
    exact hsw
  · rw [parseStmt]
    rfl


/-- C2 counterexample: the identifier x is already present in the
innermost scope and the token is DEFINE, so the claim's if-and-only-if
predicts an IsCompatibleWith; the code emits a PropagatesTo (and only
that contract), ignoring the AddVariable duplicate error. -/
theorem C2_counterexample :
    (cDup.stack.lookupVariable "x").isSome = true ∧
    parseAssignStmt wCollab [Expr.ident "x" 6] .define [Expr.ident "one" 7] cDup =
      .ok () { cDup with contracts :=
        [.propagatesTo (.virtualVar 9) (.varT "pkg" "x" "f:6") (some (.builtin "int" false))] } :=
  ⟨rfl, rfl⟩

/-- C2 amended: for an assignment LHS element that paren-strips to an
identifier other than the blank one, PropagatesTo is emitted if and only
if the token is DEFINE - regardless of whether the identifier is already
in the innermost scope (the AddVariable error is ignored and the symbol
insertion merely attempted); with any other token the identifier is
looked up through the stack, IsCompatibleWith is emitted on success and
the lookup failure is returned as an error. -/
theorem C2_assign_ident_dispatch (c : Collab) (tok : Tok) (e : Expr) (name : String)
    (pos : Nat) (dt : DataType) (tv : TypeVar) (s : PState)
    (hstrip : stripParens e = .ident name pos) (hname : name ≠ "_") :
    (tok = .define →
      assignLhsOne c tok e dt tv s =
        .ok .next
          { s with
            stack := (s.stack.addVariable
              ⟨name, c.packageName, some dt, posStr c.fileName pos⟩).getD s.stack,
            contracts := s.contracts ++
              [.propagatesTo tv
                (varFromSymbolDef ⟨name, c.packageName, some dt, posStr c.fileName pos⟩)
                (some dt)] }) ∧
    (tok ≠ .define →
      (∀ sym, s.stack.lookupVariable name = some sym →
        assignLhsOne c tok e dt tv s =
          .ok .next { s with contracts := s.contracts ++
            [.isCompatibleWith tv (varFromSymbolDef sym) sym.Def false] }) ∧
      (s.stack.lookupVariable name = none →
        assignLhsOne c tok e dt tv s = .err ("Symbol " ++ name ++ " not found") s)) := by
  constructor
  · intro htok
    subst htok
    simp only [assignLhsOne, hstrip]
    rw [if_neg hname]
    simp only [if_true]
    simp only [M.bind, addVarIgnored]
    cases h : s.stack.addVariable ⟨name, c.packageName, some dt, posStr c.fileName pos⟩ with
    | some st => simp [emitC, M.ok, h]
    | none => simp [emitC, M.ok, h]
  · intro htok
    constructor
    · intro sym hsym
      simp only [assignLhsOne, hstrip]
      rw [if_neg hname]
      rw [if_neg htok]
      simp only [M.bind, lookupVarM, hsym]
      simp [emitC, M.ok]
    · intro hnone
      simp only [assignLhsOne, hstrip]
      rw [if_neg hname]
      rw [if_neg htok]
      simp only [M.bind, lookupVarM, hnone]
      rfl

theorem C2_assign_ident_dispatch_witness :
    stripParens (Expr.paren (Expr.ident "y" 3)) = Expr.ident "y" 3 ∧
    ("y" : String) ≠ "_" ∧
    assignLhsOne wCollab .define (Expr.paren (Expr.ident "y" 3)) (.builtin "int" false)
        (.virtualVar 1) cSt =
      .ok .next
        { cSt with
          stack := (cSt.stack.addVariable
            ⟨"y", wCollab.packageName, some (.builtin "int" false),
              posStr wCollab.fileName 3⟩).getD cSt.stack,
          contracts := cSt.contracts ++
            [.propagatesTo (.virtualVar 1)
              (varFromSymbolDef ⟨"y", wCollab.packageName, some (.builtin "int" false),
                posStr wCollab.fileName 3⟩)
              (some (.builtin "int" false))] } :=
  ⟨rfl, by decide,
    (C2_assign_ident_dispatch wCollab .define (Expr.paren (Expr.ident "y" 3)) "y" 3
      (.builtin "int" false) (.virtualVar 1) cSt rfl (by decide)).1 rfl⟩


theorem parseAssign_err_of_choose {c : Collab} {lhs : List Expr} {tok : Tok}
    {rhs : List Expr} {s s' : PState} {m : String}
    (h : chooseRhsMode c lhs.length rhs s = .err m s') :
    parseAssignStmt c lhs tok rhs s = .err m s' := by
  unfold parseAssignStmt
  simp [M.bind, h]

theorem parseAssign_fatal_of_choose {c : Collab} {lhs : List Expr} {tok : Tok}
    {rhs : List Expr} {s s' : PState} {m : String}
    (h : chooseRhsMode c lhs.length rhs s = .fatal m s') :
    parseAssignStmt c lhs tok rhs s = .fatal m s' := by
  unfold parseAssignStmt
  simp [M.bind, h]

/-- C3: with |Lhs| different from |Rhs|, parseAssignStmt rejects the
statement unless |Rhs| = 1 and the single RHS is a call whose result
count k satisfies k = |Lhs| (or a C-interop call with k + 1 = |Lhs|), an
index expression with |Lhs| = 2, or a type assertion with |Lhs| = 2; an
unrecognized single-RHS shape surfaces as the fatal programming-error
panic of the source's default arm rather than an error return.  The
synthesised slots carry the claimed types: the extra C-interop slot is
Builtin{error} with the CGO type variable, the second index slot and the
second assertion slot are Builtin{bool}, and assertion slot 0 is T with
IsCompatibleWith(xTV, Constant(T), T) emitted. -/
theorem C3_arity_mismatch (c : Collab) (lhs : List Expr) (tok : Tok) (rhs : List Expr)
    (s : PState) (hne : lhs.length ≠ rhs.length) :
    (rhs.length ≠ 1 → ∃ m, parseAssignStmt c lhs tok rhs s = .err m s) ∧
    (∀ fn args attr, rhs = [.call fn args] → c.exprParse (.call fn args) = .ok attr →
      isCgoCall (.call fn args) = false → lhs.length ≠ attr.results.length →
      ∃ m, parseAssignStmt c lhs tok rhs s = .err m s) ∧
    (∀ fn args attr, rhs = [.call fn args] → c.exprParse (.call fn args) = .ok attr →
      isCgoCall (.call fn args) = true → lhs.length ≠ attr.results.length →
      lhs.length ≠ attr.results.length + 1 →
      ∃ m, parseAssignStmt c lhs tok rhs s = .err m s) ∧
    (∀ x i, rhs = [.indexExpr x i] → lhs.length ≠ 2 →
      ∃ m, parseAssignStmt c lhs tok rhs s = .err m s) ∧
    (∀ x t, rhs = [.typeAssert x t] → lhs.length ≠ 2 →
      ∃ m, parseAssignStmt c lhs tok rhs s = .err m s) ∧
    (∀ r, rhs = [r] → (∀ fn args, r ≠ .call fn args) → (∀ x i, r ≠ .indexExpr x i) →
      (∀ x t, r ≠ .typeAssert x t) →
      ∃ m, parseAssignStmt c lhs tok rhs s = .fatal m s) ∧
    (∀ attr s', rhsIndexer c (.callMode attr true) attr.results.length s' =
      .ok (DataType.builtin "error" false, TypeVar.cgo) s') ∧
    (∀ r0 s', rhsIndexer c (.indexMode r0) 1 s' =
      .ok (DataType.builtin "bool" false,
           makeConstant c.packageName (DataType.builtin "bool" false)) s') ∧
    (∀ xtv td s', rhsIndexer c (.assertMode xtv td) 0 s' =
      .ok (td, makeConstant c.packageName td)
        { s' with contracts := s'.contracts ++
          [.isCompatibleWith xtv (makeConstant c.packageName td) (some td) false] }) ∧
    (∀ xtv td s', rhsIndexer c (.assertMode xtv td) 1 s' =
      .ok (DataType.builtin "bool" false,
           makeConstant c.packageName (DataType.builtin "bool" false)) s') := by
  refine ⟨?_, ?_, ?_, ?_, ?_, ?_, ?_, ?_, ?_, ?_⟩
  · intro h1
    have hc : chooseRhsMode c lhs.length rhs s =
        .err "Number of expressions on the left-hand side differs from ones on the right-hand side" s := by
      unfold chooseRhsMode
      rw [if_neg hne, if_pos h1]
      rfl
    exact ⟨_, parseAssign_err_of_choose hc⟩
  · intro fn args attr hr hat hcgo hlen
    subst hr
    have hc : chooseRhsMode c lhs.length [Expr.call fn args] s =
        .err "Number of expressions on the left-hand side differs from number of results of invocation on the right-hand side" s := by
      unfold chooseRhsMode
      rw [if_neg hne]
      rw [if_neg (by simp)]
      simp only [List.getD_cons_zero, hcgo, M.bind, oracleExpr, M.liftE, hat, M.ok]
      rw [if_neg hlen]
      simp
      rfl
    exact ⟨_, parseAssign_err_of_choose hc⟩
  · intro fn args attr hr hat hcgo hlen hlen1
    subst hr
    have hc : chooseRhsMode c lhs.length [Expr.call fn args] s =
        .err "CGO: Number of expressions on the left-hand side differs from number of results of invocation on the right-hand side" s := by
      unfold chooseRhsMode
      rw [if_neg hne]
      rw [if_neg (by simp)]
      simp only [List.getD_cons_zero, hcgo, M.bind, oracleExpr, M.liftE, hat, M.ok]
      rw [if_neg hlen]
      simp only [if_true]
      rw [if_neg hlen1]
      rfl
    exact ⟨_, parseAssign_err_of_choose hc⟩
  · intro x i hr hlen
    subst hr
    have hc : chooseRhsMode c lhs.length [Expr.indexExpr x i] s =
        .err "Expecting two expression on the RHS when accessing an index expression" s := by
      unfold chooseRhsMode
      rw [if_neg hne]
      rw [if_neg (by simp)]
      simp only [List.getD_cons_zero]
      rw [if_pos hlen]
      rfl
    exact ⟨_, parseAssign_err_of_choose hc⟩
  · intro x t hr hlen
    subst hr
    have hc : chooseRhsMode c lhs.length [Expr.typeAssert x t] s =
        .err "Expecting two expression on the RHS when type-asserting an expression" s := by
      unfold chooseRhsMode
      rw [if_neg hne]
      rw [if_neg (by simp)]
      simp only [List.getD_cons_zero]
      rw [if_pos hlen]
      rfl
    exact ⟨_, parseAssign_err_of_choose hc⟩
  · intro r hr hcall hidx hassert
    subst hr
    refine ⟨"Expecting *ast.CallExpr or *ast.IndexExpr", parseAssign_fatal_of_choose ?_⟩
    unfold chooseRhsMode
    rw [if_neg hne]
    rw [if_neg (by simp)]
    simp only [List.getD_cons_zero]
    cases r with
    | call fn args => exact absurd rfl (hcall fn args)
    | indexExpr x i => exact absurd rfl (hidx x i)
    | typeAssert x t => exact absurd rfl (hassert x t)
    | ident n p => rfl
    | paren e => rfl
    | selector e sel => rfl
    | star e => rfl
    | unary op e => rfl
    | otherExpr tg => rfl
  · intro attr s'
    simp [rhsIndexer, M.ok]
  · intro r0 s'
    simp [rhsIndexer, M.ok]
  · intro xtv td s'
    simp [rhsIndexer, M.bind, emitC, M.ok, makeConstant]
  · intro xtv td s'
    simp [rhsIndexer, M.ok]


theorem C3_arity_mismatch_witness :
    ([Expr.ident "a" 1, Expr.ident "b" 2].length ≠ ([] : List Expr).length) ∧
    (([] : List Expr).length ≠ 1) ∧
    (∃ m, parseAssignStmt wCollab [Expr.ident "a" 1, Expr.ident "b" 2] .assign [] cSt =
      .err m cSt) :=
  ⟨by decide, by decide,
    (C3_arity_mismatch wCollab [Expr.ident "a" 1, Expr.ident "b" 2] .assign [] cSt
      (by decide)).1 (by decide)⟩

/-- The per-name record stored by the trailing loop of ParseValueSpec. -/
def trailingSym (c : Collab) (td : DataType) (np : String × Nat) : SymbolDef :=
  ⟨np.1, c.packageName, some td, posStr c.fileName np.2⟩

/-- C4: in the trailing N-V loop of ParseValueSpec each name is stored
with the explicit type T when present and otherwise with the remembered
lastConstType, an error is returned when both are absent, no contract is
emitted for any trailing name (the state is unchanged), and the
iota-group scenario const (A = iota; B; C) produces exactly one
PropagatesTo (for A) with A, B and C all typed Builtin{int, untyped}. -/
theorem C4_trailing_names (c : Collab) :
    (∀ names td s, valueSpecTrailing c (some td) names s =
      .ok ((names.filter (fun np => np.1 ≠ "_")).map (trailingSym c td)) s) ∧
    (∀ (name : String) (pos : Nat) (names : List (String × Nat)) s,
      s.lastConstType = none →
      valueSpecTrailing c none ((name, pos) :: names) s =
        .err "No type in ValueSpec declaration for identifier" s) ∧
    (∀ names t s, s.lastConstType = some t →
      valueSpecTrailing c none names s =
        .ok ((names.filter (fun np => np.1 ≠ "_")).map (trailingSym c t)) s) ∧
    (parseDeclStmt wCollab
        [Spec.valueSpec ⟨[("A", 1)], none, [Expr.ident "iota" 10]⟩,
         Spec.valueSpec ⟨[("B", 2)], none, []⟩,
         Spec.valueSpec ⟨[("C", 3)], none, []⟩] cSt =
      .ok ()
        ⟨⟨[⟨[⟨"A", "pkg", some (.builtin "int" true), "f:1"⟩,
             ⟨"B", "pkg", some (.builtin "int" true), "f:2"⟩,
             ⟨"C", "pkg", some (.builtin "int" true), "f:3"⟩], [], []⟩]⟩,
         [.propagatesTo (.virtualVar 6) (.varT "pkg" "A" "f:1") (some (.builtin "int" true))],
         0, some (.builtin "int" true), []⟩) := by
  have hsome : ∀ names td s, valueSpecTrailing c (some td) names s =
      .ok ((names.filter (fun np => np.1 ≠ "_")).map (trailingSym c td)) s := by
    intro names td
    induction names with
    | nil => intro s; rfl
    | cons hd tl ih =>
        intro s
        obtain ⟨name, pos⟩ := hd
        simp only [valueSpecTrailing, M.bind, M.ok]
        by_cases hn : name = "_"
        · subst hn
          rw [if_pos rfl]
          rw [ih s]
          simp [trailingSym]
        · rw [if_neg hn]
          simp only [M.bind]
          rw [ih s]
          simp [M.ok, hn, trailingSym]
  refine ⟨hsome, ?_, ?_, ?_⟩
  · intro name pos names s hlc
    simp only [valueSpecTrailing, M.bind, getLastConstType, hlc]
    rfl
  · intro names t s hlc
    cases names with
    | nil => rfl
    | cons hd tl =>
        obtain ⟨name, pos⟩ := hd
        simp only [valueSpecTrailing, M.bind, getLastConstType, hlc, M.ok]
        by_cases hn : name = "_"
        · subst hn
          rw [if_pos rfl]
          rw [hsome tl t s]
          simp [trailingSym]
        · rw [if_neg hn]
          simp only [M.bind]
          rw [hsome tl t s]
          simp [M.ok, hn, trailingSym]
  · rfl


theorem C4_trailing_names_witness :
    cSt.lastConstType = none ∧
    valueSpecTrailing wCollab none [("D", 4)] cSt =
      .err "No type in ValueSpec declaration for identifier" cSt :=
  ⟨rfl, (C4_trailing_names wCollab).2.1 "D" 4 [] cSt rfl⟩

/-- A state two scopes deep: current level 1, strictly below file level. -/
def cLvl1 : PState := ⟨⟨[Table.empty, Table.empty]⟩, [], 0, none, []⟩

/-- C5 counterexample: a two-name two-value ValueSpec parsed strictly
below file level stores symbols whose Package is the package name, not
the empty string: only the single-value tuple branch clears it. -/
def c5Out : PState :=
  ⟨⟨[Table.empty, Table.empty]⟩,
   [.propagatesTo (.virtualVar 9) (.varT "pkg" "x" "f:1") (some (.builtin "int" false)),
    .propagatesTo (.virtualVar 9) (.varT "pkg" "y" "f:2") (some (.builtin "int" false))],
   0, some (.builtin "int" false), []⟩

theorem C5_counterexample :
    0 < cLvl1.stack.currentLevel ∧
    ("pkg" : String) ≠ "" ∧
    parseValueSpec wCollab ⟨[("x", 1), ("y", 2)], none, [Expr.ident "one" 7, Expr.ident "one" 8]⟩ cLvl1 =
      .ok [⟨"x", "pkg", some (.builtin "int" false), "f:1"⟩,
           ⟨"y", "pkg", some (.builtin "int" false), "f:2"⟩] c5Out :=
  ⟨by decide, by decide, rfl⟩

/-- Inversion of a successful bind: the first computation succeeded and
the continuation ran from its state. -/
theorem bind_ok_inv {α β : Type} {x : M α} {f : α → M β} {s s' : PState} {b : β}
    (h : M.bind x f s = .ok b s') :
    ∃ a s1, x s = .ok a s1 ∧ f a s1 = .ok b s' := by
  unfold M.bind at h
  cases hx : x s with
  | ok a s1 => rw [hx] at h; exact ⟨a, s1, rfl, h⟩
  | err m s1 => rw [hx] at h; exact absurd h (by simp)
  | fatal m s1 => rw [hx] at h; exact absurd h (by simp)

theorem ok_inv {α : Type} {v b : α} {s s' : PState}
    (h : M.ok v s = .ok b s') : b = v ∧ s' = s := by
  simp only [M.ok, StepResult.ok.injEq] at h
  exact ⟨h.1.symm, h.2.symm⟩

theorem emitC_inv {K : Contract} {s s' : PState} {a : Unit}
    (h : emitC K s = .ok a s') : s' = { s with contracts := s.contracts ++ [K] } := by
  simp only [emitC, StepResult.ok.injEq] at h
  exact h.2.symm

theorem getCurrentLevel_inv {s s' : PState} {lvl : Nat}
    (h : getCurrentLevel s = .ok lvl s') : lvl = s.stack.currentLevel ∧ s' = s := by
  simp only [getCurrentLevel, StepResult.ok.injEq] at h
  exact ⟨h.1.symm, h.2.symm⟩

theorem setLastConstType_inv {d : Option DataType} {s s' : PState} {a : Unit}
    (h : setLastConstType d s = .ok a s') : s' = { s with lastConstType := d } := by
  simp only [setLastConstType, StepResult.ok.injEq] at h
  exact h.2.symm

/-- C5 amended: the package of a stored symbol is cleared below file
level only in the single-value tuple branch of ParseValueSpec; the
element-wise branch and the trailing branch always keep the package
name, whatever the current level. -/
theorem C5_package_clearing (c : Collab) :
    (∀ (l : List ((String × Nat) × (DataType × TypeVar))) (td : Option DataType)
      (s : PState) (syms : List SymbolDef) (s' : PState),
      0 < s.stack.currentLevel →
      valueSpecTuple c td l s = .ok syms s' →
      ∀ sym ∈ syms, sym.Package = "") ∧
    (∀ (l : List ((String × Nat) × Expr)) (td : Option DataType)
      (s : PState) (syms : List SymbolDef) (s' : PState),
      valueSpecElems c td l s = .ok syms s' →
      ∀ sym ∈ syms, sym.Package = c.packageName) ∧
    (∀ (l : List (String × Nat)) (td : Option DataType)
      (s : PState) (syms : List SymbolDef) (s' : PState),
      valueSpecTrailing c td l s = .ok syms s' →
      ∀ sym ∈ syms, sym.Package = c.packageName) := by
  refine ⟨?_, ?_, ?_⟩
  · intro l td
    induction l with
    | nil =>
        intro s syms s' hlvl h
        obtain ⟨hsyms, -⟩ := ok_inv h
        subst hsyms
        intro sym hs
        exact absurd hs (by simp)
    | cons hd tl ih =>
        intro s syms s' hlvl h
        obtain ⟨⟨name, pos⟩, dt, tv⟩ := hd
        simp only [valueSpecTuple] at h
        by_cases hn : name = "_"
        · rw [if_pos hn] at h
          exact ih s syms s' hlvl h
        · rw [if_neg hn] at h
          cases td with
          | none =>
              obtain ⟨lvl, s1, hg, h⟩ := bind_ok_inv h
              obtain ⟨hlvl1, hs1⟩ := getCurrentLevel_inv hg
              subst hs1
              subst hlvl1
              obtain ⟨u, s2, hem, h⟩ := bind_ok_inv h
              have hs2 := emitC_inv hem
              obtain ⟨a, s3, hrec, hfin⟩ := bind_ok_inv h
              obtain ⟨hsyms, -⟩ := ok_inv hfin
              subst hsyms
              intro sym hs
              cases hs with
              | head => simp [clearBelowFile, if_pos hlvl]
              | tail _ hmem =>
                  have hlvl2 : 0 < s2.stack.currentLevel := by
                    rw [hs2] at *; simpa using hlvl
                  exact ih s2 a s3 hlvl2 hrec sym hmem
          | some t =>
              obtain ⟨lvl, s1, hg, h⟩ := bind_ok_inv h
              obtain ⟨hlvl1, hs1⟩ := getCurrentLevel_inv hg
              subst hs1
              subst hlvl1
              obtain ⟨u, s2, hem, h⟩ := bind_ok_inv h
              have hs2 := emitC_inv hem
              obtain ⟨a, s3, hrec, hfin⟩ := bind_ok_inv h
              obtain ⟨hsyms, -⟩ := ok_inv hfin
              subst hsyms
              intro sym hs
              cases hs with
              | head => simp [clearBelowFile, if_pos hlvl]
              | tail _ hmem =>
                  have hlvl2 : 0 < s2.stack.currentLevel := by
                    rw [hs2] at *; simpa using hlvl
                  exact ih s2 a s3 hlvl2 hrec sym hmem
  · intro l td
    induction l with
    | nil =>
        intro s syms s' h
        obtain ⟨hsyms, -⟩ := ok_inv h
        subst hsyms
        intro sym hs
        exact absurd hs (by simp)
    | cons hd tl ih =>
        intro s syms s' h
        obtain ⟨⟨name, pos⟩, v⟩ := hd
        simp only [valueSpecElems] at h
        obtain ⟨attr, s1, hor, h⟩ := bind_ok_inv h
        by_cases hlen : attr.results.length ≠ 1
        · rw [if_pos hlen] at h
          exact absurd h (by simp [M.err])
        · rw [if_neg hlen] at h
          by_cases hn : name = "_"
          · rw [if_pos hn] at h
            exact ih s1 syms s' h
          · rw [if_neg hn] at h
            cases td with
            | some t =>
                obtain ⟨u, s2, hem, h⟩ := bind_ok_inv h
                obtain ⟨u2, s3, hio, h⟩ := bind_ok_inv h
                obtain ⟨a, s4, hrec, hfin⟩ := bind_ok_inv h
                obtain ⟨hsyms, -⟩ := ok_inv hfin
                subst hsyms
                intro sym hs
                cases hs with
                | head => rfl
                | tail _ hmem => exact ih s3 a s4 hrec sym hmem
            | none =>
                obtain ⟨u2, s3, hio, h⟩ := bind_ok_inv h
                obtain ⟨u, s2, hem, h⟩ := bind_ok_inv h
                obtain ⟨a, s4, hrec, hfin⟩ := bind_ok_inv h
                obtain ⟨hsyms, -⟩ := ok_inv hfin
                subst hsyms
                intro sym hs
                cases hs with
                | head => rfl
                | tail _ hmem => exact ih s2 a s4 hrec sym hmem
  · intro l td
    induction l generalizing td with
    | nil =>
        intro s syms s' h
        obtain ⟨hsyms, -⟩ := ok_inv h
        subst hsyms
        intro sym hs
        exact absurd hs (by simp)
    | cons hd tl ih =>
        intro s syms s' h
        obtain ⟨name, pos⟩ := hd
        simp only [valueSpecTrailing] at h
        obtain ⟨t2, s1, hsel, h⟩ := bind_ok_inv h
        by_cases hn : name = "_"
        · rw [if_pos hn] at h
          exact ih (some t2) s1 syms s' h
        · rw [if_neg hn] at h
          obtain ⟨a, s2, hrec, hfin⟩ := bind_ok_inv h
          obtain ⟨hsyms, -⟩ := ok_inv hfin
          subst hsyms
          intro sym hs
          cases hs with
          | head => rfl
          | tail _ hmem => exact ih (some t2) s1 a s2 hrec sym hmem


theorem C5_package_clearing_witness :
    0 < cLvl1.stack.currentLevel ∧
    (∀ sym ∈ [(⟨"z", "", some (.builtin "int" false), "f:1"⟩ : SymbolDef)],
      sym.Package = "") :=
  ⟨by decide,
    (C5_package_clearing wCollab).1 [(("z", 1), (.builtin "int" false, .virtualVar 1))]
      none cLvl1 [⟨"z", "", some (.builtin "int" false), "f:1"⟩]
      ⟨⟨[Table.empty, Table.empty]⟩,
       [.propagatesTo (.virtualVar 1) (.varT "" "z" "f:1") (some (.builtin "int" false))],
       0, none, []⟩
      (by decide) rfl⟩

theorem bind_ok_step {α β : Type} {x : M α} {a : α} {s s1 : PState}
    (h : x s = .ok a s1) (f : α → M β) : M.bind x f s = f a s1 := by
  unfold M.bind
  rw [h]

theorem scoped_contracts {α : Type} (x : M α) (s : PState) :
    ((M.scoped x) s).state.contracts =
      (x { s with stack := s.stack.push }).state.contracts := by
  unfold M.scoped
  cases h : x { s with stack := s.stack.push } with
  | ok a s' => simp only [StepResult.state]
  | err m s' => simp only [StepResult.state]
  | fatal m s' => simp only [StepResult.state]

/-- A DEFINE range statement over an iteration expression whose derived
key and value types are both present: IsRangeable is emitted on the
iteration type variable, then the key and value identifiers are bound in
the fresh range scope with PropagatesTo contracts whose expected types
are the derived key and value types, and the body contracts follow. -/
theorem range_define_contracts (c : Collab) (x : Expr) (k v : String) (kp vp : Nat)
    (body : List Stmt) (s : PState) (xAttr : Attr) (dt0 : DataType) (xtv : TypeVar)
    (rex kdt vdt : DataType)
    (hx : c.exprParse x = .ok xAttr)
    (hres : xAttr.results = [(dt0, xtv)])
    (hff : c.findFirstNonid (stripOnePointer dt0) = .ok rex)
    (hrkv : rangeKeyValue rex = some (some kdt, some vdt))
    (hk : k ≠ "_") (hv : v ≠ "_") (hne : k ≠ v) :
    ∃ t, ((parseRangeStmt c (some (.ident k kp)) (some (.ident v vp)) .define x body) s).state.contracts
      = s.contracts ++
        [.isRangeable xtv,
         .propagatesTo (.rangeKey xtv) (.varT c.packageName k (posStr c.fileName kp)) (some kdt),
         .propagatesTo (.rangeValue xtv) (.varT c.packageName v (posStr c.fileName vp)) (some vdt)] ++ t := by
  have hget : xAttr.get 0 = (dt0, xtv) := by simp [Attr.get, hres]
  rw [parseRangeStmt]
  rw [bind_ok_step (show oracleExpr c x s = .ok xAttr s by
    simp [oracleExpr, hx, M.liftE, M.ok])]
  rw [scoped_contracts]
  simp only [hget]
  have h1 : emitC (Contract.isRangeable xtv) { s with stack := s.stack.push } =
      .ok () { s with
               stack := s.stack.push
               contracts := s.contracts ++ [Contract.isRangeable xtv] } := rfl
  rw [bind_ok_step h1]
  rw [bind_ok_step (show M.liftE (c.findFirstNonid (stripOnePointer dt0))
      { s with
        stack := s.stack.push
        contracts := s.contracts ++ [Contract.isRangeable xtv] } =
      .ok rex { s with
        stack := s.stack.push
        contracts := s.contracts ++ [Contract.isRangeable xtv] } by
    simp [hff, M.liftE, M.ok])]
  rw [rangeCore]
  simp only [hrkv]
  have h4 : rangeKeyPart c .define xtv (some kdt) (some (.ident k kp))
      { s with
        stack := s.stack.push
        contracts := s.contracts ++ [Contract.isRangeable xtv] } =
      .ok true
      { s with
        stack := ⟨⟨[⟨k, c.packageName, some kdt, posStr c.fileName kp⟩], [], []⟩ :: s.stack.tables⟩
        contracts := s.contracts ++ [Contract.isRangeable xtv] ++
          [.propagatesTo (.rangeKey xtv) (.varT c.packageName k (posStr c.fileName kp)) (some kdt)] } := by
    simp [rangeKeyPart, hk, addVarChecked, SStack.addVariable, Table.addVariable,
      Table.empty, SStack.push, emitC, M.bind, M.ok, varFromSymbolDef]
  rw [bind_ok_step h4]
  simp only [if_true]
  have h5 : rangeValuePart c .define xtv (some vdt) (some (.ident v vp))
      { s with
        stack := ⟨⟨[⟨k, c.packageName, some kdt, posStr c.fileName kp⟩], [], []⟩ :: s.stack.tables⟩
        contracts := s.contracts ++ [Contract.isRangeable xtv] ++
          [.propagatesTo (.rangeKey xtv) (.varT c.packageName k (posStr c.fileName kp)) (some kdt)] } =
      .ok true
      { s with
        stack := ⟨⟨[⟨k, c.packageName, some kdt, posStr c.fileName kp⟩,
                    ⟨v, c.packageName, some vdt, posStr c.fileName vp⟩], [], []⟩ :: s.stack.tables⟩
        contracts := s.contracts ++ [Contract.isRangeable xtv] ++
          [.propagatesTo (.rangeKey xtv) (.varT c.packageName k (posStr c.fileName kp)) (some kdt)] ++
          [.propagatesTo (.rangeValue xtv) (.varT c.packageName v (posStr c.fileName vp)) (some vdt)] } := by
    simp [rangeValuePart, hv, addVarChecked, SStack.addVariable, Table.addVariable,
      emitC, M.bind, M.ok, varFromSymbolDef, hne]
  rw [bind_ok_step h5]
  simp only [if_true]
  obtain ⟨-, t, ht⟩ := mpres_scoped (mpres_stmtList c body)
    { s with
      stack := ⟨⟨[⟨k, c.packageName, some kdt, posStr c.fileName kp⟩,
                  ⟨v, c.packageName, some vdt, posStr c.fileName vp⟩], [], []⟩ :: s.stack.tables⟩
      contracts := s.contracts ++ [Contract.isRangeable xtv] ++
        [.propagatesTo (.rangeKey xtv) (.varT c.packageName k (posStr c.fileName kp)) (some kdt)] ++
        [.propagatesTo (.rangeValue xtv) (.varT c.packageName v (posStr c.fileName vp)) (some vdt)] }
  refine ⟨t, ?_⟩
  rw [ht]
  simp [List.append_assoc]


/-- A collaborator for the range and select fixtures: s parses to a
string-typed result, n to a non-string builtin, ch to a channel of int;
identifier resolution is already at a non-identifier. -/
def fxCollab : Collab :=
  { packageName := "pkg", fileName := "f",
    exprParse := fun e =>
      match e with
      | .ident "s" _ => .ok ⟨[(.builtin "string" false, .virtualVar 1)]⟩
      | .ident "n" _ => .ok ⟨[(.builtin "float64" false, .virtualVar 2)]⟩
      | .ident "ch" _ => .ok ⟨[(.channelT "both" (some (.builtin "int" false)), .virtualVar 3)]⟩
      | _ => .error "unhandled",
    typeParse := fun _ => .error "unknown type",
    findFirstNonid := fun d => .ok d }

/-- C6: a range statement first parses the iteration expression and
emits IsRangeable on its type variable; the iteration type is resolved
by stripping one level of pointer and handing the result to
FindFirstNonidDataType; when the resolved type is a Builtin string, or
any Identifier, the derived key type is Builtin int and the derived
value type is Builtin rune, and a DEFINE range binds the key and value
identifiers with those types and emits PropagatesTo contracts carrying
them as expected types. -/
theorem C6_range_string_int_rune (c : Collab) (x : Expr) (k v : String) (kp vp : Nat)
    (body : List Stmt) (s : PState) (xAttr : Attr) (dt0 : DataType) (xtv : TypeVar) (u : Bool)
    (hx : c.exprParse x = .ok xAttr)
    (hres : xAttr.results = [(dt0, xtv)])
    (hff : c.findFirstNonid (stripOnePointer dt0) = .ok (.builtin "string" u))
    (hk : k ≠ "_") (hv : v ≠ "_") (hne : k ≠ v) :
    (∀ d, stripOnePointer (.pointer d) = d) ∧
    (∀ u2, rangeKeyValue (.builtin "string" u2) =
      some (some (.builtin "int" false), some (.builtin "rune" false))) ∧
    (∀ d p, rangeKeyValue (.identifier d p) =
      some (some (.builtin "int" false), some (.builtin "rune" false))) ∧
    ∃ t, ((parseRangeStmt c (some (.ident k kp)) (some (.ident v vp)) .define x body) s).state.contracts
      = s.contracts ++
        [.isRangeable xtv,
         .propagatesTo (.rangeKey xtv) (.varT c.packageName k (posStr c.fileName kp))
           (some (.builtin "int" false)),
         .propagatesTo (.rangeValue xtv) (.varT c.packageName v (posStr c.fileName vp))
           (some (.builtin "rune" false))] ++ t := by
  refine ⟨fun d => rfl, fun u2 => rfl, fun d p => rfl, ?_⟩
  exact range_define_contracts c x k v kp vp body s xAttr dt0 xtv (.builtin "string" u)
    (.builtin "int" false) (.builtin "rune" false) hx hres hff rfl hk hv hne

theorem C6_range_string_int_rune_witness :
    (fxCollab.exprParse (.ident "s" 3) =
      .ok ⟨[(.builtin "string" false, .virtualVar 1)]⟩) ∧
    ((⟨[(.builtin "string" false, .virtualVar 1)]⟩ : Attr).results =
      [(.builtin "string" false, .virtualVar 1)]) ∧
    (fxCollab.findFirstNonid (stripOnePointer (.builtin "string" false)) =
      .ok (.builtin "string" false)) ∧
    ("i" : String) ≠ "_" ∧ ("r" : String) ≠ "_" ∧ ("i" : String) ≠ "r" ∧
    ((∀ d, stripOnePointer (.pointer d) = d) ∧
     (∀ u2, rangeKeyValue (.builtin "string" u2) =
       some (some (.builtin "int" false), some (.builtin "rune" false))) ∧
     (∀ d p, rangeKeyValue (.identifier d p) =
       some (some (.builtin "int" false), some (.builtin "rune" false))) ∧
     ∃ t, ((parseRangeStmt fxCollab (some (.ident "i" 4)) (some (.ident "r" 5)) .define
             (.ident "s" 3) []) cSt).state.contracts
       = cSt.contracts ++
         [.isRangeable (.virtualVar 1),
          .propagatesTo (.rangeKey (.virtualVar 1)) (.varT "pkg" "i" (posStr "f" 4))
            (some (.builtin "int" false)),
          .propagatesTo (.rangeValue (.virtualVar 1)) (.varT "pkg" "r" (posStr "f" 5))
            (some (.builtin "rune" false))] ++ t) :=
  ⟨rfl, rfl, rfl, by decide, by decide, by decide,
   C6_range_string_int_rune fxCollab (.ident "s" 3) "i" "r" 4 5 [] cSt
     ⟨[(.builtin "string" false, .virtualVar 1)]⟩ (.builtin "string" false) (.virtualVar 1)
     false rfl rfl rfl (by decide) (by decide) (by decide)⟩

/-- C10: the non-string complaint for a range over a Builtin or an
Identifier is built with fmt.Errorf but never returned, so every Builtin
(string or not) and every Identifier still derives key type Builtin int
and value type Builtin rune, and the range parse proceeds without an
error from the resolution: the DEFINE key/value bindings and their
PropagatesTo contracts are emitted as for string. -/
theorem C10_nonstring_range (c : Collab) (x : Expr) (k v : String) (kp vp : Nat)
    (body : List Stmt) (s : PState) (xAttr : Attr) (dt0 : DataType) (xtv : TypeVar)
    (b : String) (u : Bool)
    (hx : c.exprParse x = .ok xAttr)
    (hres : xAttr.results = [(dt0, xtv)])
    (hff : c.findFirstNonid (stripOnePointer dt0) = .ok (.builtin b u))
    (hb : b ≠ "string")
    (hk : k ≠ "_") (hv : v ≠ "_") (hne : k ≠ v) :
    (∀ b2 u2, rangeKeyValue (.builtin b2 u2) =
      some (some (.builtin "int" false), some (.builtin "rune" false))) ∧
    (∀ d p, rangeKeyValue (.identifier d p) =
      some (some (.builtin "int" false), some (.builtin "rune" false))) ∧
    ∃ t, ((parseRangeStmt c (some (.ident k kp)) (some (.ident v vp)) .define x body) s).state.contracts
      = s.contracts ++
        [.isRangeable xtv,
         .propagatesTo (.rangeKey xtv) (.varT c.packageName k (posStr c.fileName kp))
           (some (.builtin "int" false)),
         .propagatesTo (.rangeValue xtv) (.varT c.packageName v (posStr c.fileName vp))
           (some (.builtin "rune" false))] ++ t := by
  refine ⟨fun b2 u2 => rfl, fun d p => rfl, ?_⟩
  exact range_define_contracts c x k v kp vp body s xAttr dt0 xtv (.builtin b u)
    (.builtin "int" false) (.builtin "rune" false) hx hres hff rfl hk hv hne

theorem C10_nonstring_range_witness :
    (fxCollab.exprParse (.ident "n" 3) =
      .ok ⟨[(.builtin "float64" false, .virtualVar 2)]⟩) ∧
    ((⟨[(.builtin "float64" false, .virtualVar 2)]⟩ : Attr).results =
      [(.builtin "float64" false, .virtualVar 2)]) ∧
    (fxCollab.findFirstNonid (stripOnePointer (.builtin "float64" false)) =
      .ok (.builtin "float64" false)) ∧
    ("float64" : String) ≠ "string" ∧
    ("i" : String) ≠ "_" ∧ ("r" : String) ≠ "_" ∧ ("i" : String) ≠ "r" ∧
    ((∀ b2 u2, rangeKeyValue (.builtin b2 u2) =
       some (some (.builtin "int" false), some (.builtin "rune" false))) ∧
     (∀ d p, rangeKeyValue (.identifier d p) =
       some (some (.builtin "int" false), some (.builtin "rune" false))) ∧
     ∃ t, ((parseRangeStmt fxCollab (some (.ident "i" 4)) (some (.ident "r" 5)) .define
             (.ident "n" 3) []) cSt).state.contracts
       = cSt.contracts ++
         [.isRangeable (.virtualVar 2),
          .propagatesTo (.rangeKey (.virtualVar 2)) (.varT "pkg" "i" (posStr "f" 4))
            (some (.builtin "int" false)),
          .propagatesTo (.rangeValue (.virtualVar 2)) (.varT "pkg" "r" (posStr "f" 5))
            (some (.builtin "rune" false))] ++ t) :=
  ⟨rfl, rfl, rfl, by decide, by decide, by decide, by decide,
   C10_nonstring_range fxCollab (.ident "n" 3) "i" "r" 4 5 [] cSt
     ⟨[(.builtin "float64" false, .virtualVar 2)]⟩ (.builtin "float64" false) (.virtualVar 2)
     "float64" false rfl rfl rfl (by decide) (by decide) (by decide) (by decide)⟩


/-- C8: a select receive clause with a single RHS that is a unary arrow
over a channel-typed expression allocates the next virtual variable y
and emits IsReceiveableFrom(chanTV, y); with two LHS identifiers under
DEFINE the first is bound in the clause scope with the channel value
type and PropagatesTo(y, b1) is emitted, the second is bound with
Builtin bool and PropagatesTo(Constant(Builtin bool), b2) is emitted;
an RHS that is not a single unary arrow over a channel-typed expression
is an error. -/
theorem C8_select_receive (c : Collab) (x : Expr) (b1 b2 : String) (p1 p2 : Nat)
    (s : PState) (rest : List Table) (attr : Attr) (dir : String)
    (value : Option DataType) (chTv : TypeVar)
    (hx : c.exprParse x = .ok attr)
    (hres : attr.results = [(.channelT dir value, chTv)])
    (hstk : s.stack.tables = Table.empty :: rest)
    (hb : b1 ≠ b2) :
    (parseCommAssign c [.ident b1 p1, .ident b2 p2] .define [.unary .arrow x] s =
      .ok () { s with
        stack := ⟨⟨[⟨b1, c.packageName, value, posStr c.fileName p1⟩,
                    ⟨b2, c.packageName, some (.builtin "bool" false), posStr c.fileName p2⟩],
                   [], []⟩ :: rest⟩
        contracts := s.contracts ++
          [.isReceiveableFrom chTv (.virtualVar s.nextVirtual) none,
           .propagatesTo (.virtualVar s.nextVirtual)
             (.varT c.packageName b1 (posStr c.fileName p1)) none,
           .propagatesTo (makeConstant "builtin" (.builtin "bool" false))
             (.varT c.packageName b2 (posStr c.fileName p2)) none]
        nextVirtual := s.nextVirtual + 1 }) ∧
    (∀ lhs tok r1 r2 rr, parseCommAssign c lhs tok (r1 :: r2 :: rr) s =
      .err "Expecting a single expression on the RHS of a clause assigment" s) ∧
    (∀ lhs tok e, (∀ op y, e ≠ .unary op y) →
      parseCommAssign c lhs tok [e] s =
        .err "Expecting unary expression in a form of <-chan" s) ∧
    (∀ lhs tok op y, op ≠ .arrow →
      parseCommAssign c lhs tok [.unary op y] s =
        .err "Expecting unary expression in a form of <-chan" s) ∧
    (∀ lhs tok y a2, c.exprParse y = .ok a2 → a2.results.length ≠ 1 →
      parseCommAssign c lhs tok [.unary .arrow y] s =
        .err "Expecting unary expression in a form of <-chan" (oracleExpr c y s).state) ∧
    (∀ lhs tok y a2 d0 tv0, c.exprParse y = .ok a2 → a2.results = [(d0, tv0)] →
      (∀ dd vv, d0 ≠ .channelT dd vv) →
      parseCommAssign c lhs tok [.unary .arrow y] s =
        .err "Expecting unary expression in a form of <-chan" (oracleExpr c y s).state) := by
  refine ⟨?_, ?_, ?_, ?_, ?_, ?_⟩
  · simp [parseCommAssign, oracleExpr, M.liftE, hx, hres, Attr.get, commRecvLhs,
      newVirtualVar, emitC, addVarIgnored, SStack.addVariable, Table.addVariable,
      hstk, Table.empty, M.bind, M.ok, varFromSymbolDef, makeConstant, hb]
  · intro lhs tok r1 r2 rr
    simp [parseCommAssign, M.err]
  · intro lhs tok e he
    cases e with
    | unary op y => exact absurd rfl (he op y)
    | ident a b => simp [parseCommAssign, M.err]
    | paren a => simp [parseCommAssign, M.err]
    | selector a b => simp [parseCommAssign, M.err]
    | star a => simp [parseCommAssign, M.err]
    | call a b => simp [parseCommAssign, M.err]
    | indexExpr a b => simp [parseCommAssign, M.err]
    | typeAssert a b => simp [parseCommAssign, M.err]
    | otherExpr a => simp [parseCommAssign, M.err]
  · intro lhs tok op y hop
    simp [parseCommAssign, M.err, hop]
  · intro lhs tok y a2 hy hlen
    simp [parseCommAssign, oracleExpr, M.liftE, hy, hlen, M.bind, M.err, M.ok,
      StepResult.state]
  · intro lhs tok y a2 d0 tv0 hy hres2 hch
    cases d0 <;>
      simp_all [parseCommAssign, oracleExpr, M.liftE, M.bind, M.err, M.ok, Attr.get,
        StepResult.state]


theorem C8_select_receive_witness :
    (fxCollab.exprParse (.ident "ch" 9) =
      .ok ⟨[(.channelT "both" (some (.builtin "int" false)), .virtualVar 3)]⟩) ∧
    ((⟨[(.channelT "both" (some (.builtin "int" false)), .virtualVar 3)]⟩ : Attr).results =
      [(.channelT "both" (some (.builtin "int" false)), .virtualVar 3)]) ∧
    (cSt.stack.tables = Table.empty :: []) ∧
    ("a" : String) ≠ "b" ∧
    (parseCommAssign fxCollab [.ident "a" 1, .ident "b" 2] .define
        [.unary .arrow (.ident "ch" 9)] cSt =
      .ok () { cSt with
        stack := ⟨[⟨[⟨"a", "pkg", some (.builtin "int" false), posStr "f" 1⟩,
                     ⟨"b", "pkg", some (.builtin "bool" false), posStr "f" 2⟩],
                    [], []⟩]⟩
        contracts := cSt.contracts ++
          [.isReceiveableFrom (.virtualVar 3) (.virtualVar cSt.nextVirtual) none,
           .propagatesTo (.virtualVar cSt.nextVirtual) (.varT "pkg" "a" (posStr "f" 1)) none,
           .propagatesTo (makeConstant "builtin" (.builtin "bool" false))
             (.varT "pkg" "b" (posStr "f" 2)) none]
        nextVirtual := cSt.nextVirtual + 1 }) :=
  ⟨rfl, rfl, rfl, by decide,
   (C8_select_receive fxCollab (.ident "ch" 9) "a" "b" 1 2 cSt []
     ⟨[(.channelT "both" (some (.builtin "int" false)), .virtualVar 3)]⟩ "both"
     (some (.builtin "int" false)) (.virtualVar 3) rfl rfl rfl (by decide)).1⟩

end SymbolsExtractor
